import Mathlib

/-!
Verification of the node-classification and policy-group assembly engine of
the powerfullz override-rules Substore conversion script.

The script is a pure, synchronous transform: it reads a subscription config
(a list of proxy records with a `name` field) together with resolved feature
flags, partitions the node names into country buckets, a landing set and a
low-cost set, and assembles an ordered list of policy groups ending in a
GLOBAL catch-all.  The definitions below are a shallow embedding of that
script; static data that the grouping engine never inspects (rule-provider
tables, sniffer block, DNS server lists, geodata URLs, icons are kept only
where they appear inside groups) is carried verbatim or elided as constants.

Every regular expression used by the script is an alternation of literal
branches (plus one digit class written out below), so regex testing is
embedded as substring search over the alternation branches.
-/

namespace OverrideRules

/-! ### String machinery

Substring search, ASCII lowercasing and splitting on the alternation bar,
all by structural recursion so that the kernel can evaluate them. -/

/-- Is `pat` a prefix of `s` (over character lists)? -/
def isPre : List Char → List Char → Bool
  | [], _ => true
  | _ :: _, [] => false
  | p :: ps, c :: cs => p = c && isPre ps cs

/-- Does `s` contain `pat` as a contiguous substring?  Models
`RegExp.test` for a single literal branch. -/
def hasSub : List Char → List Char → Bool
  | s, pat =>
    isPre pat s ||
      match s with
      | [] => false
      | _ :: t => hasSub t pat

/-- Substring test on strings: models testing one literal regex branch. -/
def strContains (s pat : String) : Bool :=
  hasSub s.data pat.data

/-- Split a character list on a separator character. -/
def splitCharsOn (sep : Char) : List Char → List (List Char)
  | [] => [[]]
  | c :: rest =>
    match splitCharsOn sep rest with
    | [] => [[c]]
    | g :: gs => if c = sep then [] :: g :: gs else (c :: g) :: gs

/-- Split a pattern string into its regex alternation branches (on the bar).
All country patterns in the script are alternations of literals. -/
def splitAlts (s : String) : List String :=
  (splitCharsOn '|' s.data).map (fun cs => String.mk cs)

/-- ASCII lowercasing of one character (non-ASCII characters are unchanged,
matching how the `i` regex flag treats the Chinese branches). -/
def asciiLower (c : Char) : Char :=
  if 'A' ≤ c && c ≤ 'Z' then Char.ofNat (c.toNat + 32) else c

/-- ASCII lowercasing of a string. -/
def lowerStr (s : String) : String :=
  String.mk (s.data.map asciiLower)

/-! ### Data model -/

/-- A proxy node; only the `name` field is inspected by the grouping engine,
all other protocol fields pass through untouched. -/
structure Proxy where
  name : String
  deriving Repr, DecidableEq

/-- The subscription config handed to `main`.  The node list may be absent
(`config.proxies || []` in the script). -/
structure Config where
  proxies : Option (List Proxy)
  deriving Repr, DecidableEq

/-- Resolved feature flags, as produced by `buildFeatureFlags` from the raw
script arguments (booleans default to false, the threshold to 0). -/
structure FeatureFlags where
  loadBalance : Bool
  landing : Bool
  ipv6Enabled : Bool
  fullConfig : Bool
  keepAliveEnabled : Bool
  fakeIPEnabled : Bool
  quicEnabled : Bool
  regexFilter : Bool
  countryThreshold : Nat
  deriving Repr, DecidableEq

/-- Metadata of one country in `countriesMeta`: an optional ordering weight,
the regex pattern source (an alternation of literals) and an icon URL. -/
structure CountryMeta where
  weight : Option Nat
  pattern : String
  icon : String
  deriving Repr, DecidableEq

/-- One country bucket produced by `parseCountries`: the country key and the
names of the nodes assigned to it, in input order. -/
structure CountryInfo where
  country : String
  nodes : List String
  deriving Repr, DecidableEq

/-- One emitted policy group.  Optional fields model keys that the script
spreads in conditionally; `proxies = none` models an absent candidate list
(regex mode or the include-all Manual group). -/
structure ProxyGroup where
  name : String
  icon : String
  type : String
  proxies : Option (List String) := none
  includeAll : Bool := false
  filter : Option String := none
  excludeFilter : Option String := none
  url : Option String := none
  interval : Option Nat := none
  tolerance : Option Nat := none
  lazy : Option Bool := none
  deriving Repr, DecidableEq

/-! ### Constants of the script -/

def NODE_SUFFIX : String := "节点"

def PROXY_GROUPS.SELECT : String := "选择代理"
def PROXY_GROUPS.MANUAL : String := "手动选择"
def PROXY_GROUPS.FALLBACK : String := "故障转移"
def PROXY_GROUPS.DIRECT : String := "直连"
def PROXY_GROUPS.LANDING : String := "落地节点"
def PROXY_GROUPS.LOW_COST : String := "低倍率节点"

/-- The countries table, in declaration order (order is significant: it is
the first-match tie-break of the classifier).  Patterns and icons verbatim
from the script. -/
def countriesMeta : List (String × CountryMeta) := [
  ("香港", { weight := some 10,
             pattern := "香港|港|HK|hk|Hong Kong|HongKong|hongkong|🇭🇰",
             icon := "https://gcore.jsdelivr.net/gh/Koolson/Qure@master/IconSet/Color/Hong_Kong.png" }),
  ("澳门", { weight := none,
             pattern := "澳门|MO|Macau|🇲🇴",
             icon := "https://gcore.jsdelivr.net/gh/Koolson/Qure@master/IconSet/Color/Macao.png" }),
  ("台湾", { weight := some 20,
             pattern := "台|新北|彰化|TW|Taiwan|🇹🇼",
             icon := "https://gcore.jsdelivr.net/gh/Koolson/Qure@master/IconSet/Color/Taiwan.png" }),
  ("新加坡", { weight := some 30,
             pattern := "新加坡|坡|狮城|SG|Singapore|🇸🇬",
             icon := "https://gcore.jsdelivr.net/gh/Koolson/Qure@master/IconSet/Color/Singapore.png" }),
  ("日本", { weight := some 40,
             pattern := "日本|川日|东京|大阪|泉日|埼玉|沪日|深日|JP|Japan|🇯🇵",
             icon := "https://gcore.jsdelivr.net/gh/Koolson/Qure@master/IconSet/Color/Japan.png" }),
  ("韩国", { weight := none,
             pattern := "KR|Korea|KOR|首尔|韩|韓|🇰🇷",
             icon := "https://gcore.jsdelivr.net/gh/Koolson/Qure@master/IconSet/Color/Korea.png" }),
  ("美国", { weight := some 50,
             pattern := "美国|美|US|United States|🇺🇸",
             icon := "https://gcore.jsdelivr.net/gh/Koolson/Qure@master/IconSet/Color/United_States.png" }),
  ("加拿大", { weight := none,
             pattern := "加拿大|Canada|CA|🇨🇦",
             icon := "https://gcore.jsdelivr.net/gh/Koolson/Qure@master/IconSet/Color/Canada.png" }),
  ("英国", { weight := some 60,
             pattern := "英国|United Kingdom|UK|伦敦|London|🇬🇧",
             icon := "https://gcore.jsdelivr.net/gh/Koolson/Qure@master/IconSet/Color/United_Kingdom.png" }),
  ("澳大利亚", { weight := none,
             pattern := "澳洲|澳大利亚|AU|Australia|🇦🇺",
             icon := "https://gcore.jsdelivr.net/gh/Koolson/Qure@master/IconSet/Color/Australia.png" }),
  ("德国", { weight := some 70,
             pattern := "德国|德|DE|Germany|🇩🇪",
             icon := "https://gcore.jsdelivr.net/gh/Koolson/Qure@master/IconSet/Color/Germany.png" }),
  ("法国", { weight := some 80,
             pattern := "法国|法|FR|France|🇫🇷",
             icon := "https://gcore.jsdelivr.net/gh/Koolson/Qure@master/IconSet/Color/France.png" }),
  ("俄罗斯", { weight := none,
             pattern := "俄罗斯|俄|RU|Russia|🇷🇺",
             icon := "https://gcore.jsdelivr.net/gh/Koolson/Qure@master/IconSet/Color/Russia.png" }),
  ("泰国", { weight := none,
             pattern := "泰国|泰|TH|Thailand|🇹🇭",
             icon := "https://gcore.jsdelivr.net/gh/Koolson/Qure@master/IconSet/Color/Thailand.png" }),
  ("印度", { weight := none,
             pattern := "印度|IN|India|🇮🇳",
             icon := "https://gcore.jsdelivr.net/gh/Koolson/Qure@master/IconSet/Color/India.png" }),
  ("马来西亚", { weight := none,
             pattern := "马来西亚|马来|MY|Malaysia|🇲🇾",
             icon := "https://gcore.jsdelivr.net/gh/Koolson/Qure@master/IconSet/Color/Malaysia.png" })
]

/-- Test of the low-cost regex, originally written with a `0\.[0-5]` digit
class followed by four literal branches; the digit class is written out as
its six instances.  The `i` flag is irrelevant: no branch contains an ASCII
letter. -/
def lowCostTest (name : String) : Bool :=
  ["0.0", "0.1", "0.2", "0.3", "0.4", "0.5",
   "低倍率", "省流", "大流量", "实验性"].any (fun p => strContains name p)

/-- Test of the landing regex (alternation of literals, `i` flag): the name
is ASCII-lowercased and the single ASCII branch is written lowercase. -/
def landingTest (name : String) : Bool :=
  ["家宽", "家庭", "家庭宽带", "商宽", "商业宽带", "星链", "starlink", "落地"].any
    (fun p => strContains (lowerStr name) p)

/-- The landing pattern string written into regex-mode filter fields. -/
def LANDING_PATTERN : String := "(?i)家宽|家庭|家庭宽带|商宽|商业宽带|星链|Starlink|落地"

/-! ### NodeClassifier -/

def parseLowCost (config : Config) : List String :=
  ((config.proxies.getD []).filter (fun proxy => lowCostTest proxy.name)).map
    (fun proxy => proxy.name)

def parseLandingNodes (config : Config) : List String :=
  ((config.proxies.getD []).filter (fun proxy => landingTest proxy.name)).map
    (fun proxy => proxy.name)

/-- Does the (stripped) pattern of one country match the name?  The script
compiles `meta.pattern` with a leading `(?i)` removed; no table entry
carries that prefix, so compilation is the plain alternation, case
sensitive. -/
def countryTest (meta : CountryMeta) (name : String) : Bool :=
  (splitAlts meta.pattern).any (fun p => strContains name p)

/-- First country of `countriesMeta` (declaration order) whose pattern
matches the name; the inner-loop `break` of the script. -/
def firstCountry (name : String) : Option String :=
  (countriesMeta.find? (fun cm => countryTest cm.2 name)).map (fun cm => cm.1)

/-- Append a name to the bucket of a country inside the insertion-ordered
bucket list, creating the bucket at the end when absent; models pushing to
`countryNodes[country]` with object keys in insertion order. -/
def pushBucket : List CountryInfo → String → String → List CountryInfo
  | [], c, n => [{ country := c, nodes := [n] }]
  | i :: rest, c, n =>
    if i.country = c then { country := i.country, nodes := i.nodes ++ [n] } :: rest
    else i :: pushBucket rest c n

/-- One step of the classification loop over the node list. -/
def classifyStep (acc : List CountryInfo) (proxy : Proxy) : List CountryInfo :=
  let name := proxy.name
  if landingTest name then acc
  else if lowCostTest name then acc
  else
    match firstCountry name with
    | some c => pushBucket acc c name
    | none => acc

/-- Classify every node into country buckets; a landing or low-cost match
skips the node, otherwise the first matching country (declaration order)
receives it.  Buckets are listed in the order their first node appeared. -/
def parseCountries (config : Config) : List CountryInfo :=
  (config.proxies.getD []).foldl classifyStep []

/-! ### Ordering and naming of country groups -/

/-- Weight of a country for sorting: a missing table entry or an unset
weight both read as Infinity (`?? Infinity` in the script), modelled as
`none`. -/
def jsWeight (country : String) : Option Nat :=
  match countriesMeta.find? (fun p => p.1 = country) with
  | some p => p.2.weight
  | none => none

/-- Comparator of the script, `wa - wb` on numbers-or-Infinity, as a
less-or-equal test: Infinity ties with Infinity (NaN coerces to 0 inside
the sort). -/
def weightLe : Option Nat → Option Nat → Bool
  | _, none => true
  | none, some _ => false
  | some a, some b => a ≤ b

/-- The sorting relation on buckets induced by the weight comparator. -/
def bucketLe (a b : CountryInfo) : Prop :=
  weightLe (jsWeight a.country) (jsWeight b.country) = true

instance : DecidableRel bucketLe := fun a b =>
  instDecidableEqBool (weightLe (jsWeight a.country) (jsWeight b.country)) true

/-- Filter buckets by the threshold, stable-sort ascending by weight
(JS `Array.sort` is stable), and append the node suffix to each country.
`insertionSort` is the stable sort, hence extensionally the JS result. -/
def getCountryGroupNames (countryInfo : List CountryInfo) (minCount : Nat) : List String :=
  let filtered := countryInfo.filter (fun item => minCount ≤ item.nodes.length)
  (filtered.insertionSort bucketLe).map (fun item => item.country ++ NODE_SUFFIX)

/-- Remove a trailing node suffix from one name (the `节点$` regex
replace: drop the suffix when present, otherwise leave the name alone). -/
def stripOneSuffix (name : String) : String :=
  if NODE_SUFFIX.data.isSuffixOf name.data then
    String.mk (name.data.take (name.data.length - NODE_SUFFIX.data.length))
  else name

/-- Remove the trailing node suffix from every group name. -/
def stripNodeSuffix (groupNames : List String) : List String :=
  groupNames.map stripOneSuffix

/-! ### CandidateListBuilder -/

/-- The four reusable ordered candidate lists. -/
structure BaseLists where
  defaultProxies : List String
  defaultProxiesDirect : List String
  defaultSelector : List String
  defaultFallback : List String
  deriving Repr, DecidableEq

/-- Build the four base lists.  The script builds each with
`buildList`, flattening and dropping falsy entries; conditional entries are
modelled as conditional singleton segments.  `regexFilter` is read from the
flag closure in the script and passed explicitly here. -/
def buildBaseLists (regexFilter : Bool) (landing : Bool) (lowCostNodes : List String)
    (countryGroupNames : List String) : BaseLists :=
  let lowCost := decide (lowCostNodes.length > 0) || regexFilter
  let defaultSelector :=
    [PROXY_GROUPS.FALLBACK] ++
    (if landing then [PROXY_GROUPS.LANDING] else []) ++
    countryGroupNames ++
    (if lowCost then [PROXY_GROUPS.LOW_COST] else []) ++
    [PROXY_GROUPS.MANUAL, "DIRECT"]
  let defaultProxies :=
    [PROXY_GROUPS.SELECT] ++
    countryGroupNames ++
    (if lowCost then [PROXY_GROUPS.LOW_COST] else []) ++
    [PROXY_GROUPS.MANUAL, PROXY_GROUPS.DIRECT]
  let defaultProxiesDirect :=
    [PROXY_GROUPS.DIRECT] ++
    countryGroupNames ++
    (if lowCost then [PROXY_GROUPS.LOW_COST] else []) ++
    [PROXY_GROUPS.SELECT, PROXY_GROUPS.MANUAL]
  let defaultFallback :=
    (if landing then [PROXY_GROUPS.LANDING] else []) ++
    countryGroupNames ++
    (if lowCost then [PROXY_GROUPS.LOW_COST] else []) ++
    [PROXY_GROUPS.MANUAL, "DIRECT"]
  { defaultProxies := defaultProxies, defaultProxiesDirect := defaultProxiesDirect,
    defaultSelector := defaultSelector, defaultFallback := defaultFallback }

/-! ### CountryGroupFactory -/

/-- The static part of the regex-mode exclude filter. -/
def baseExcludeFilter : String := "0\\.[0-5]|低倍率|省流|大流量|实验性"

/-- Lookup in the countries table (object property access; keys of the
table are unique). -/
def countriesMetaFind (country : String) : Option CountryMeta :=
  (countriesMeta.find? (fun p => p.1 = country)).map (fun p => p.2)

/-- Enumerated-mode lookup of the bucket of a country, modelling
`Object.fromEntries(countryInfo.map ...)[country] || []`: a duplicated key
keeps the last entry, a missing key yields the empty list. -/
def nodesByCountry (countryInfo : List CountryInfo) (country : String) : List String :=
  match (countryInfo.filter (fun i => i.country = country)).getLast? with
  | some i => i.nodes
  | none => []

/-- Body of the per-country loop: one health-checked group for the country,
or nothing when the country has no table entry (the `continue`).  The
candidates are enumerated when `regexFilter` is off, otherwise an
include-all runtime filter is used; the type is chosen by `loadBalance`,
and the health-check block is added only for url-test. -/
def countryGroupOf (landing loadBalance regexFilter : Bool) (countryInfo : List CountryInfo)
    (country : String) : Option ProxyGroup :=
  let groupType := if loadBalance then "load-balance" else "url-test"
  match countriesMetaFind country with
  | none => none
  | some meta =>
    let groupConfig : ProxyGroup :=
      if !regexFilter then
        { name := country ++ NODE_SUFFIX, icon := meta.icon, type := groupType,
          proxies := some (nodesByCountry countryInfo country) }
      else
        { name := country ++ NODE_SUFFIX, icon := meta.icon, type := groupType,
          includeAll := true, filter := some meta.pattern,
          excludeFilter := some (if landing then LANDING_PATTERN ++ "|" ++ baseExcludeFilter
                                 else baseExcludeFilter) }
    some (if !loadBalance then
            { groupConfig with url := some "https://cp.cloudflare.com/generate_204",
                               interval := some 60, tolerance := some 20,
                               lazy := some false }
          else groupConfig)

/-- Emit the country groups in the surfaced-country order. -/
def buildCountryProxyGroups (countries : List String) (landing loadBalance regexFilter : Bool)
    (countryInfo : List CountryInfo) : List ProxyGroup :=
  countries.filterMap (countryGroupOf landing loadBalance regexFilter countryInfo)

/-! ### PolicyGroupAssembler -/

/-- Every group of the script before the GLOBAL catch-all: the functional
groups, the fixed service groups, the optional low-cost group, then the
country groups.  Null entries of the script array (front proxy and landing
group when `landing` is off, the conditional low-cost group) are modelled
as conditional segments, matching the trailing `.filter(Boolean)`. -/
def buildProxyGroups (landing regexFilter : Bool) (countries : List String)
    (countryProxyGroups : List ProxyGroup) (lowCostNodes landingNodes : List String)
    (bl : BaseLists) : List ProxyGroup :=
  let hasTW := countries.contains "台湾"
  let hasHK := countries.contains "香港"
  let hasUS := countries.contains "美国"
  let frontProxySelector :=
    if landing then
      bl.defaultSelector.filter
        (fun name => name != PROXY_GROUPS.LANDING && name != PROXY_GROUPS.FALLBACK)
    else []
  [{ name := PROXY_GROUPS.SELECT,
     icon := "https://gcore.jsdelivr.net/gh/Koolson/Qure@master/IconSet/Color/Proxy.png",
     type := "select", proxies := some bl.defaultSelector },
   { name := PROXY_GROUPS.MANUAL,
     icon := "https://gcore.jsdelivr.net/gh/shindgewongxj/WHATSINStash@master/icon/select.png",
     includeAll := true, type := "select" }] ++
  (if landing then
    [{ name := "前置代理",
       icon := "https://gcore.jsdelivr.net/gh/Koolson/Qure@master/IconSet/Color/Area.png",
       type := "select", proxies := some frontProxySelector,
       includeAll := regexFilter,
       excludeFilter := if regexFilter then some LANDING_PATTERN else none },
     { name := PROXY_GROUPS.LANDING,
       icon := "https://gcore.jsdelivr.net/gh/Koolson/Qure@master/IconSet/Color/Airport.png",
       type := "select",
       proxies := if regexFilter then none else some landingNodes,
       includeAll := regexFilter,
       filter := if regexFilter then some LANDING_PATTERN else none }]
   else []) ++
  [{ name := PROXY_GROUPS.FALLBACK,
     icon := "https://gcore.jsdelivr.net/gh/Koolson/Qure@master/IconSet/Color/Bypass.png",
     type := "fallback", url := some "https://cp.cloudflare.com/generate_204",
     proxies := some bl.defaultFallback, interval := some 180, tolerance := some 20,
     lazy := some false },
   { name := "静态资源",
     icon := "https://gcore.jsdelivr.net/gh/Koolson/Qure@master/IconSet/Color/Cloudflare.png",
     type := "select", proxies := some bl.defaultProxies },
   { name := "AI",
     icon := "https://gcore.jsdelivr.net/gh/powerfullz/override-rules@master/icons/chatgpt.png",
     type := "select", proxies := some bl.defaultProxies },
   { name := "Crypto",
     icon := "https://gcore.jsdelivr.net/gh/Koolson/Qure@master/IconSet/Color/Cryptocurrency_3.png",
     type := "select", proxies := some bl.defaultProxies },
   { name := "Google",
     icon := "https://gcore.jsdelivr.net/gh/powerfullz/override-rules@master/icons/Google.png",
     type := "select", proxies := some bl.defaultProxies },
   { name := "Microsoft",
     icon := "https://gcore.jsdelivr.net/gh/powerfullz/override-rules@master/icons/Microsoft_Copilot.png",
     type := "select", proxies := some bl.defaultProxies },
   { name := "YouTube",
     icon := "https://gcore.jsdelivr.net/gh/Koolson/Qure@master/IconSet/Color/YouTube.png",
     type := "select", proxies := some bl.defaultProxies },
   { name := "Bilibili",
     icon := "https://gcore.jsdelivr.net/gh/Koolson/Qure@master/IconSet/Color/bilibili.png",
     type := "select",
     proxies := some (if hasTW && hasHK then [PROXY_GROUPS.DIRECT, "台湾节点", "香港节点"]
                      else bl.defaultProxiesDirect) },
   { name := "Bahamut",
     icon := "https://gcore.jsdelivr.net/gh/Koolson/Qure@master/IconSet/Color/Bahamut.png",
     type := "select",
     proxies := some (if hasTW then ["台湾节点", PROXY_GROUPS.SELECT, PROXY_GROUPS.MANUAL,
                                     PROXY_GROUPS.DIRECT]
                      else bl.defaultProxies) },
   { name := "Netflix",
     icon := "https://gcore.jsdelivr.net/gh/Koolson/Qure@master/IconSet/Color/Netflix.png",
     type := "select", proxies := some bl.defaultProxies },
   { name := "TikTok",
     icon := "https://gcore.jsdelivr.net/gh/Koolson/Qure@master/IconSet/Color/TikTok.png",
     type := "select", proxies := some bl.defaultProxies },
   { name := "Spotify",
     icon := "https://gcore.jsdelivr.net/gh/Koolson/Qure@master/IconSet/Color/Spotify.png",
     type := "select", proxies := some bl.defaultProxies },
   { name := "E-Hentai",
     icon := "https://gcore.jsdelivr.net/gh/powerfullz/override-rules@master/icons/Ehentai.png",
     type := "select", proxies := some bl.defaultProxies },
   { name := "Telegram",
     icon := "https://gcore.jsdelivr.net/gh/Koolson/Qure@master/IconSet/Color/Telegram.png",
     type := "select", proxies := some bl.defaultProxies },
   { name := "Truth Social",
     icon := "https://gcore.jsdelivr.net/gh/powerfullz/override-rules@master/icons/TruthSocial.png",
     type := "select",
     proxies := some (if hasUS then ["美国节点", PROXY_GROUPS.SELECT, PROXY_GROUPS.MANUAL]
                      else bl.defaultProxies) },
   { name := "OneDrive",
     icon := "https://gcore.jsdelivr.net/gh/powerfullz/override-rules@master/icons/Onedrive.png",
     type := "select", proxies := some bl.defaultProxies },
   { name := "PikPak",
     icon := "https://gcore.jsdelivr.net/gh/powerfullz/override-rules@master/icons/PikPak.png",
     type := "select", proxies := some bl.defaultProxies },
   { name := "SSH(22端口)",
     icon := "https://gcore.jsdelivr.net/gh/Koolson/Qure@master/IconSet/Color/Server.png",
     type := "select", proxies := some bl.defaultProxies },
   { name := "搜狗输入法",
     icon := "https://gcore.jsdelivr.net/gh/powerfullz/override-rules@master/icons/Sougou.png",
     type := "select", proxies := some [PROXY_GROUPS.DIRECT, "REJECT"] },
   { name := PROXY_GROUPS.DIRECT,
     icon := "https://gcore.jsdelivr.net/gh/Koolson/Qure@master/IconSet/Color/Direct.png",
     type := "select", proxies := some ["DIRECT", PROXY_GROUPS.SELECT] },
   { name := "广告拦截",
     icon := "https://gcore.jsdelivr.net/gh/Koolson/Qure@master/IconSet/Color/AdBlack.png",
     type := "select", proxies := some ["REJECT", "REJECT-DROP", PROXY_GROUPS.DIRECT] }] ++
  (if decide (lowCostNodes.length > 0) || regexFilter then
    [{ name := PROXY_GROUPS.LOW_COST,
       icon := "https://gcore.jsdelivr.net/gh/Koolson/Qure@master/IconSet/Color/Lab.png",
       type := "url-test", url := some "https://cp.cloudflare.com/generate_204",
       proxies := if regexFilter then none else some lowCostNodes,
       includeAll := regexFilter,
       filter := if regexFilter then some "(?i)0\\.[0-5]|低倍率|省流|大流量|实验性" else none }]
   else []) ++
  countryProxyGroups

/-! ### Rules, DNS and the overall transform -/

/-- The static rule list (template interpolations resolved to their constant
group names). -/
def baseRules : List String := [
  "RULE-SET,ADBlock,广告拦截",
  "RULE-SET,AdditionalFilter,广告拦截",
  "RULE-SET,SogouInput,搜狗输入法",
  "DOMAIN-SUFFIX,truthsocial.com,Truth Social",
  "RULE-SET,StaticResources,静态资源",
  "RULE-SET,CDNResources,静态资源",
  "RULE-SET,AdditionalCDNResources,静态资源",
  "RULE-SET,Crypto,Crypto",
  "RULE-SET,EHentai,E-Hentai",
  "RULE-SET,TikTok,TikTok",
  "RULE-SET,SteamFix,直连",
  "RULE-SET,GoogleFCM,直连",
  "DOMAIN,services.googleapis.cn,选择代理",
  "GEOSITE,CATEGORY-AI-!CN,AI",
  "GEOSITE,GOOGLE-PLAY@CN,直连",
  "GEOSITE,MICROSOFT@CN,直连",
  "GEOSITE,ONEDRIVE,OneDrive",
  "GEOSITE,MICROSOFT,Microsoft",
  "GEOSITE,TELEGRAM,Telegram",
  "GEOSITE,YOUTUBE,YouTube",
  "GEOSITE,GOOGLE,Google",
  "GEOSITE,NETFLIX,Netflix",
  "GEOSITE,SPOTIFY,Spotify",
  "GEOSITE,BAHAMUT,Bahamut",
  "GEOSITE,BILIBILI,Bilibili",
  "GEOSITE,PIKPAK,PikPak",
  "GEOSITE,GFW,选择代理",
  "GEOSITE,CN,直连",
  "GEOSITE,PRIVATE,直连",
  "GEOIP,NETFLIX,Netflix,no-resolve",
  "GEOIP,TELEGRAM,Telegram,no-resolve",
  "GEOIP,CN,直连",
  "GEOIP,PRIVATE,直连",
  "DST-PORT,22,SSH(22端口)",
  "MATCH,选择代理"]

/-- Prepend the QUIC-blocking rule unless QUIC is allowed. -/
def buildRules (quicEnabled : Bool) : List String :=
  if !quicEnabled then "AND,((DST-PORT,443),(NETWORK,UDP)),REJECT" :: baseRules
  else baseRules

/-- The varying part of the selected DNS block: the enhanced mode, the ipv6
flag threaded from the flags, and the fake-ip filter list when present (the
server lists are constants and elided). -/
structure DnsConfig where
  ipv6 : Bool
  enhancedMode : String
  fakeIpFilter : Option (List String) := none
  deriving Repr, DecidableEq

def dnsConfig (ipv6Enabled : Bool) : DnsConfig :=
  { ipv6 := ipv6Enabled, enhancedMode := "redir-host" }

def dnsConfigFakeIp (ipv6Enabled : Bool) : DnsConfig :=
  { ipv6 := ipv6Enabled, enhancedMode := "fake-ip",
    fakeIpFilter := some ["geosite:private", "geosite:connectivity-check", "geosite:cn",
      "Mijia Cloud", "dig.io.mi.com", "localhost.ptlogin2.qq.com", "*.icloud.com",
      "*.stun.*.*", "*.stun.*.*.*"] }

/-- The varying fields of the full-config block (every other field of that
block is a constant). -/
structure FullSettings where
  ipv6 : Bool
  disableKeepAlive : Bool
  deriving Repr, DecidableEq

/-- The output structure of `main`: the pass-through node list and every
computed section; constant sections (rule providers, sniffer, geodata
URLs) are elided. -/
structure ResultConfig where
  proxies : Option (List Proxy)
  proxyGroups : List ProxyGroup
  rules : List String
  dns : DnsConfig
  fullSettings : Option FullSettings
  deriving Repr, DecidableEq

/-- The GLOBAL catch-all group appended last by `main`. -/
def globalGroup (globalProxies : List String) : ProxyGroup :=
  { name := "GLOBAL",
    icon := "https://gcore.jsdelivr.net/gh/Koolson/Qure@master/IconSet/Color/Global.png",
    includeAll := true, type := "select", proxies := some globalProxies }

/-- All groups before GLOBAL, computed from the config and flags exactly as
the body of `main` wires the components together. -/
def mainGroupsBeforeGlobal (flags : FeatureFlags) (config : Config) : List ProxyGroup :=
  let countryInfo := parseCountries config
  let lowCostNodes := parseLowCost config
  let landingNodes := if flags.landing then parseLandingNodes config else []
  let countryGroupNames := getCountryGroupNames countryInfo flags.countryThreshold
  let countries := stripNodeSuffix countryGroupNames
  let bl := buildBaseLists flags.regexFilter flags.landing lowCostNodes countryGroupNames
  let countryProxyGroups :=
    buildCountryProxyGroups countries flags.landing flags.loadBalance flags.regexFilter countryInfo
  buildProxyGroups flags.landing flags.regexFilter countries countryProxyGroups
    lowCostNodes landingNodes bl

/-- The full group sequence: everything built so far, then the GLOBAL group
whose candidates are the names of all prior groups. -/
def mainProxyGroups (flags : FeatureFlags) (config : Config) : List ProxyGroup :=
  let proxyGroups := mainGroupsBeforeGlobal flags config
  proxyGroups ++ [globalGroup (proxyGroups.map (fun item => item.name))]

/-- The whole transform. -/
def main (flags : FeatureFlags) (config : Config) : ResultConfig :=
  { proxies := config.proxies,
    proxyGroups := mainProxyGroups flags config,
    rules := buildRules flags.quicEnabled,
    dns := if flags.fakeIPEnabled then dnsConfigFakeIp flags.ipv6Enabled
           else dnsConfig flags.ipv6Enabled,
    fullSettings := if flags.fullConfig then
        some { ipv6 := flags.ipv6Enabled, disableKeepAlive := !flags.keepAliveEnabled }
      else none }

/-! ### Basic lemmas about the embedding -/

/-- The keys of the countries table, in declaration order. -/
def countryKeys : List String := countriesMeta.map (fun p => p.1)

/-- The names of all possible country groups. -/
def countryPool : List String := countriesMeta.map (fun p => p.1 ++ NODE_SUFFIX)

/-- Group names that an input node name must avoid for the cycle-freedom
invariant: the country group names plus the landing and low-cost group
names (these are the only groups whose enumerated candidates are raw node
names). -/
def reservedNames : List String :=
  countryPool ++ [PROXY_GROUPS.LANDING, PROXY_GROUPS.LOW_COST]

theorem stripOneSuffix_append (c : String) : stripOneSuffix (c ++ NODE_SUFFIX) = c := by
  have hsuf : NODE_SUFFIX.data.isSuffixOf (c ++ NODE_SUFFIX).data = true := by
    rw [String.data_append]
    exact List.isSuffixOf_iff_suffix.mpr (List.suffix_append _ _)
  rw [stripOneSuffix, if_pos hsuf, String.data_append]
  have hlen : (c.data ++ NODE_SUFFIX.data).length - NODE_SUFFIX.data.length = c.data.length := by
    rw [List.length_append]; omega
  rw [hlen, List.take_left]

theorem find?_eq_head?_filter {α : Type _} (p : α → Bool) :
    ∀ (l : List α), l.find? p = (l.filter p).head?
  | [] => rfl
  | a :: l => by
    by_cases h : p a
    · rw [List.find?_cons_of_pos _ h, List.filter_cons_of_pos h, List.head?_cons]
    · rw [List.find?_cons_of_neg _ (by simpa using h), List.filter_cons_of_neg (by simpa using h),
        find?_eq_head?_filter p l]

/-- Bucket membership after a push: the pushed pair joins, everything else
is untouched. -/
theorem mem_pushBucket_iff (acc : List CountryInfo) (c₀ n₀ c n : String) :
    (∃ i ∈ pushBucket acc c₀ n₀, i.country = c ∧ n ∈ i.nodes) ↔
      ((∃ i ∈ acc, i.country = c ∧ n ∈ i.nodes) ∨ (c = c₀ ∧ n = n₀)) := by
  induction acc with
  | nil => simp [pushBucket, eq_comm]
  | cons i₀ rest ih =>
    by_cases hc : i₀.country = c₀
    · simp only [pushBucket, if_pos hc]
      constructor
      · rintro ⟨i, hi, hic, hin⟩
        rcases List.mem_cons.mp hi with rfl | hi
        · simp only at hic hin
          rcases List.mem_append.mp hin with hin | hin
          · exact Or.inl ⟨i₀, List.mem_cons_self _ _, hic, hin⟩
          · simp only [List.mem_singleton] at hin
            exact Or.inr ⟨hic ▸ hc ▸ rfl, hin⟩
        · exact Or.inl ⟨i, List.mem_cons_of_mem _ hi, hic, hin⟩
      · rintro (⟨i, hi, hic, hin⟩ | ⟨rfl, rfl⟩)
        · rcases List.mem_cons.mp hi with rfl | hi
          · exact ⟨_, List.mem_cons_self _ _, hic, List.mem_append.mpr (Or.inl hin)⟩
          · exact ⟨i, List.mem_cons_of_mem _ hi, hic, hin⟩
        · exact ⟨_, List.mem_cons_self _ _, hc, List.mem_append.mpr (Or.inr (List.mem_singleton.mpr rfl))⟩
    · simp only [pushBucket, if_neg hc]
      constructor
      · rintro ⟨i, hi, hic, hin⟩
        rcases List.mem_cons.mp hi with rfl | hi
        · exact Or.inl ⟨i, List.mem_cons_self _ _, hic, hin⟩
        · rcases ih.mp ⟨i, hi, hic, hin⟩ with h | h
          · rcases h with ⟨j, hj, hjc, hjn⟩
            exact Or.inl ⟨j, List.mem_cons_of_mem _ hj, hjc, hjn⟩
          · exact Or.inr h
      · rintro (⟨i, hi, hic, hin⟩ | h)
        · rcases List.mem_cons.mp hi with rfl | hi
          · exact ⟨i, List.mem_cons_self _ _, hic, hin⟩
          · rcases ih.mpr (Or.inl ⟨i, hi, hic, hin⟩) with ⟨j, hj, hjc, hjn⟩
            exact ⟨j, List.mem_cons_of_mem _ hj, hjc, hjn⟩
        · rcases ih.mpr (Or.inr h) with ⟨j, hj, hjc, hjn⟩
          exact ⟨j, List.mem_cons_of_mem _ hj, hjc, hjn⟩

/-- The classification of a single node name: landing and low-cost names
are skipped, otherwise the first matching country receives the name. -/
def classifyName (name : String) : Option String :=
  if landingTest name then none
  else if lowCostTest name then none
  else firstCountry name

theorem classifyStep_eq (acc : List CountryInfo) (p : Proxy) :
    classifyStep acc p =
      match classifyName p.name with
      | some c => pushBucket acc c p.name
      | none => acc := by
  rw [classifyStep, classifyName]
  by_cases h₁ : landingTest p.name
  · simp [h₁]
  · by_cases h₂ : lowCostTest p.name
    · simp [h₁, h₂]
    · simp [h₁, h₂]

/-- Characterization of bucket membership over the classification fold. -/
theorem foldl_classifyStep_mem (l : List Proxy) (acc : List CountryInfo) (c n : String) :
    (∃ i ∈ l.foldl classifyStep acc, i.country = c ∧ n ∈ i.nodes) ↔
      ((∃ i ∈ acc, i.country = c ∧ n ∈ i.nodes) ∨
        ((∃ p ∈ l, p.name = n) ∧ classifyName n = some c)) := by
  induction l generalizing acc with
  | nil => simp
  | cons p l ih =>
    rw [List.foldl_cons, ih, classifyStep_eq]
    rcases hcl : classifyName p.name with _ | c'
    · simp only [List.mem_cons]
      constructor
      · rintro (h | h)
        · exact Or.inl h
        · exact Or.inr ⟨⟨h.1.choose, Or.inr h.1.choose_spec.1, h.1.choose_spec.2⟩, h.2⟩
      · rintro (h | ⟨⟨q, hq, hqn⟩, hcn⟩)
        · exact Or.inl h
        · rcases hq with rfl | hq'
          · rw [← hqn, hcl] at hcn
            exact Option.noConfusion hcn
          · exact Or.inr ⟨⟨q, hq', hqn⟩, hcn⟩
    · rw [mem_pushBucket_iff]
      constructor
      · rintro ((h | ⟨rfl, rfl⟩) | h)
        · exact Or.inl h
        · exact Or.inr ⟨⟨p, List.mem_cons_self _ _, rfl⟩, hcl⟩
        · exact Or.inr ⟨⟨h.1.choose, List.mem_cons_of_mem _ h.1.choose_spec.1,
            h.1.choose_spec.2⟩, h.2⟩
      · rintro (h | ⟨⟨q, hq, hqn⟩, hcn⟩)
        · exact Or.inl (Or.inl h)
        · rcases List.mem_cons.mp hq with rfl | hq
          · rw [hqn] at hcl
            rw [hcl] at hcn
            exact Or.inl (Or.inr ⟨(Option.some_inj.mp hcn).symm, hqn.symm⟩)
          · exact Or.inr ⟨⟨q, hq, hqn⟩, hcn⟩

/-- Bucket membership in the classifier output: a name sits in the bucket
of a country exactly when some input node carries that name and the
classification of the name is that country. -/
theorem mem_parseCountries_iff (config : Config) (c n : String) :
    (∃ i ∈ parseCountries config, i.country = c ∧ n ∈ i.nodes) ↔
      ((∃ p ∈ config.proxies.getD [], p.name = n) ∧ classifyName n = some c) := by
  rw [parseCountries, foldl_classifyStep_mem]
  simp

theorem mem_pushBucket_country (acc : List CountryInfo) (c₀ n₀ : String) :
    ∀ i ∈ pushBucket acc c₀ n₀, i.country = c₀ ∨ ∃ j ∈ acc, i.country = j.country := by
  induction acc with
  | nil =>
    intro i hi
    simp only [pushBucket, List.mem_singleton] at hi
    subst hi
    exact Or.inl rfl
  | cons j rest ih =>
    intro i hi
    rw [pushBucket] at hi
    by_cases hc : j.country = c₀
    · rw [if_pos hc] at hi
      rcases List.mem_cons.mp hi with rfl | hi
      · exact Or.inr ⟨j, List.mem_cons_self _ _, rfl⟩
      · exact Or.inr ⟨i, List.mem_cons_of_mem _ hi, rfl⟩
    · rw [if_neg hc] at hi
      rcases List.mem_cons.mp hi with rfl | hi
      · exact Or.inr ⟨i, List.mem_cons_self _ _, rfl⟩
      · rcases ih i hi with h | ⟨j', hj', h⟩
        · exact Or.inl h
        · exact Or.inr ⟨j', List.mem_cons_of_mem _ hj', h⟩

theorem classifyName_mem_keys {n c : String} (h : classifyName n = some c) :
    c ∈ countryKeys := by
  rw [classifyName] at h
  by_cases h₁ : landingTest n
  · rw [if_pos h₁] at h; exact Option.noConfusion h
  · rw [if_neg h₁] at h
    by_cases h₂ : lowCostTest n
    · rw [if_pos h₂] at h; exact Option.noConfusion h
    · rw [if_neg h₂, firstCountry] at h
      rcases hf : countriesMeta.find? (fun cm => countryTest cm.2 n) with _ | cm
      · rw [hf] at h; exact Option.noConfusion h
      · rw [hf] at h
        simp at h
        exact h ▸ List.mem_map.mpr ⟨cm, List.mem_of_find?_eq_some hf, rfl⟩

/-- Every bucket of the classifier belongs to a declared country. -/
theorem parseCountries_country_mem_keys (config : Config) :
    ∀ i ∈ parseCountries config, i.country ∈ countryKeys := by
  rw [parseCountries]
  generalize config.proxies.getD [] = l
  have : ∀ (l : List Proxy) (acc : List CountryInfo),
      (∀ i ∈ acc, i.country ∈ countryKeys) →
      ∀ i ∈ l.foldl classifyStep acc, i.country ∈ countryKeys := by
    intro l
    induction l with
    | nil => intro acc h; exact h
    | cons p l ih =>
      intro acc h
      rw [List.foldl_cons]
      apply ih
      rw [classifyStep_eq]
      rcases hcl : classifyName p.name with _ | c
      · exact h
      · intro i hi
        rcases mem_pushBucket_country acc c p.name i hi with rfl' | ⟨j, hj, hjc⟩
        · exact rfl' ▸ classifyName_mem_keys hcl
        · exact hjc ▸ h j hj
  exact this l [] (by intro i hi; exact absurd hi (List.not_mem_nil i))

/-- Bucket nodes are names of input nodes, and their classification is the
country of their bucket. -/
theorem parseCountries_nodes (config : Config) :
    ∀ i ∈ parseCountries config, ∀ n ∈ i.nodes,
      (∃ p ∈ config.proxies.getD [], p.name = n) ∧ classifyName n = some i.country := by
  intro i hi n hn
  exact (mem_parseCountries_iff config i.country n).mp ⟨i, hi, rfl, hn⟩

/-- Shape of the emitted country-group names. -/
theorem mem_getCountryGroupNames {info : List CountryInfo} {t : Nat} {s : String} :
    s ∈ getCountryGroupNames info t ↔
      ∃ i ∈ info, t ≤ i.nodes.length ∧ s = i.country ++ NODE_SUFFIX := by
  rw [getCountryGroupNames]
  simp only [List.mem_map, List.mem_insertionSort, List.mem_filter, decide_eq_true_eq]
  constructor
  · rintro ⟨i, ⟨hi, ht⟩, rfl⟩
    exact ⟨i, hi, ht, rfl⟩
  · rintro ⟨i, hi, ht, rfl⟩
    exact ⟨i, ⟨hi, ht⟩, rfl⟩

/-- Shape of the surfaced (suffix-stripped) country list. -/
theorem mem_stripNodeSuffix_getCountryGroupNames {info : List CountryInfo} {t : Nat}
    {c : String} :
    c ∈ stripNodeSuffix (getCountryGroupNames info t) ↔
      ∃ i ∈ info, t ≤ i.nodes.length ∧ c = i.country := by
  rw [stripNodeSuffix]
  simp only [List.mem_map]
  constructor
  · rintro ⟨s, hs, rfl⟩
    rcases mem_getCountryGroupNames.mp hs with ⟨i, hi, ht, rfl⟩
    exact ⟨i, hi, ht, (stripOneSuffix_append i.country).symm ▸ rfl⟩
  · rintro ⟨i, hi, ht, rfl⟩
    exact ⟨i.country ++ NODE_SUFFIX, mem_getCountryGroupNames.mpr ⟨i, hi, ht, rfl⟩,
      stripOneSuffix_append i.country⟩

/-- What the per-country builder produces when the table entry exists. -/
theorem countryGroupOf_some {landing loadBalance regexFilter : Bool}
    {info : List CountryInfo} {c : String} {m : CountryMeta}
    (hm : countriesMetaFind c = some m) :
    ∃ g, countryGroupOf landing loadBalance regexFilter info c = some g ∧
      g.name = c ++ NODE_SUFFIX ∧
      g.type = (if loadBalance then "load-balance" else "url-test") ∧
      (g.proxies = none ∨ g.proxies = some (nodesByCountry info c)) := by
  rw [countryGroupOf, hm]
  cases regexFilter <;> cases loadBalance <;>
    exact ⟨_, rfl, by simp⟩

theorem countryGroupOf_none {landing loadBalance regexFilter : Bool}
    {info : List CountryInfo} {c : String}
    (hm : countriesMetaFind c = none) :
    countryGroupOf landing loadBalance regexFilter info c = none := by
  rw [countryGroupOf, hm]

/-- Members of the country-group list: their country, name, type and
candidate shape. -/
theorem mem_buildCountryProxyGroups {countries : List String}
    {landing loadBalance regexFilter : Bool} {info : List CountryInfo} {g : ProxyGroup}
    (hg : g ∈ buildCountryProxyGroups countries landing loadBalance regexFilter info) :
    ∃ c ∈ countries, ∃ m, countriesMetaFind c = some m ∧
      g.name = c ++ NODE_SUFFIX ∧
      g.type = (if loadBalance then "load-balance" else "url-test") ∧
      (g.proxies = none ∨ g.proxies = some (nodesByCountry info c)) := by
  rw [buildCountryProxyGroups] at hg
  rcases List.mem_filterMap.mp hg with ⟨c, hc, he⟩
  rcases hm : countriesMetaFind c with _ | m
  · rw [countryGroupOf_none hm] at he
    exact Option.noConfusion he
  · rcases @countryGroupOf_some landing loadBalance regexFilter info c m hm with
      ⟨g', hg', hname, htype, hprox⟩
    rw [hg'] at he
    cases Option.some_inj.mp he
    exact ⟨c, hc, m, hm, hname, htype, hprox⟩

/-- Converse: every surfaced country with a table entry yields a group. -/
theorem buildCountryProxyGroups_exists {countries : List String}
    {landing loadBalance regexFilter : Bool} {info : List CountryInfo} {c : String}
    {m : CountryMeta} (hc : c ∈ countries) (hm : countriesMetaFind c = some m) :
    ∃ g ∈ buildCountryProxyGroups countries landing loadBalance regexFilter info,
      g.name = c ++ NODE_SUFFIX := by
  rcases @countryGroupOf_some landing loadBalance regexFilter info c m hm with
    ⟨g, hg, hname, _⟩
  exact ⟨g, List.mem_filterMap.mpr ⟨c, hc, hg⟩, hname⟩

/-- Countries with a table entry: the lookup succeeds exactly on the keys. -/
theorem countriesMetaFind_isSome_iff {c : String} :
    (∃ m, countriesMetaFind c = some m) ↔ c ∈ countryKeys := by
  rw [countriesMetaFind, countryKeys]
  constructor
  · rintro ⟨m, hm⟩
    rcases hf : countriesMeta.find? (fun p => p.1 = c) with _ | p
    · rw [hf] at hm; exact Option.noConfusion hm
    · have := List.find?_some hf
      simp only [decide_eq_true_eq] at this
      exact this ▸ List.mem_map.mpr ⟨p, List.mem_of_find?_eq_some hf, rfl⟩
  · intro hc
    rcases List.mem_map.mp hc with ⟨p, hp, rfl⟩
    have : (countriesMeta.find? (fun q => q.1 = p.1)).isSome := by
      rw [List.find?_isSome]
      exact ⟨p, hp, by simp⟩
    rcases ho : countriesMeta.find? (fun q => q.1 = p.1) with _ | q
    · rw [ho] at this; exact Bool.noConfusion this
    · exact ⟨q.2, by rw [ho]; rfl⟩

theorem mem_defaultSelector {rf land : Bool} {low cgn : List String} {x : String}
    (h : x ∈ (buildBaseLists rf land low cgn).defaultSelector) :
    x = PROXY_GROUPS.FALLBACK ∨ x = PROXY_GROUPS.LANDING ∨ x ∈ cgn ∨
      x = PROXY_GROUPS.LOW_COST ∨ x = PROXY_GROUPS.MANUAL ∨ x = "DIRECT" := by
  by_cases hl : land <;>
    by_cases hc : (decide (low.length > 0) || rf) = true <;>
    simp [buildBaseLists, hl, hc] at h <;> tauto

theorem mem_defaultProxies {rf land : Bool} {low cgn : List String} {x : String}
    (h : x ∈ (buildBaseLists rf land low cgn).defaultProxies) :
    x = PROXY_GROUPS.SELECT ∨ x ∈ cgn ∨ x = PROXY_GROUPS.LOW_COST ∨
      x = PROXY_GROUPS.MANUAL ∨ x = PROXY_GROUPS.DIRECT := by
  by_cases hc : (decide (low.length > 0) || rf) = true <;>
    simp [buildBaseLists, hc] at h <;> tauto

theorem mem_defaultProxiesDirect {rf land : Bool} {low cgn : List String} {x : String}
    (h : x ∈ (buildBaseLists rf land low cgn).defaultProxiesDirect) :
    x = PROXY_GROUPS.DIRECT ∨ x ∈ cgn ∨ x = PROXY_GROUPS.LOW_COST ∨
      x = PROXY_GROUPS.SELECT ∨ x = PROXY_GROUPS.MANUAL := by
  by_cases hc : (decide (low.length > 0) || rf) = true <;>
    simp [buildBaseLists, hc] at h <;> tauto

theorem mem_defaultFallback {rf land : Bool} {low cgn : List String} {x : String}
    (h : x ∈ (buildBaseLists rf land low cgn).defaultFallback) :
    x = PROXY_GROUPS.LANDING ∨ x ∈ cgn ∨ x = PROXY_GROUPS.LOW_COST ∨
      x = PROXY_GROUPS.MANUAL ∨ x = "DIRECT" := by
  by_cases hl : land <;>
    by_cases hc : (decide (low.length > 0) || rf) = true <;>
    simp [buildBaseLists, hl, hc] at h <;> tauto

/-- Names of every group the assembler can emit before the country groups
and the catch-all. -/
def fixedGroupNames : List String :=
  [PROXY_GROUPS.SELECT, PROXY_GROUPS.MANUAL, "前置代理", PROXY_GROUPS.LANDING,
   PROXY_GROUPS.FALLBACK, "静态资源", "AI", "Crypto", "Google", "Microsoft", "YouTube",
   "Bilibili", "Bahamut", "Netflix", "TikTok", "Spotify", "E-Hentai", "Telegram",
   "Truth Social", "OneDrive", "PikPak", "SSH(22端口)", "搜狗输入法", PROXY_GROUPS.DIRECT,
   "广告拦截", PROXY_GROUPS.LOW_COST]

/-- Every assembled group is a fixed-name group or one of the country
groups. -/
theorem mem_buildProxyGroups_name {land rf : Bool} {countries : List String}
    {cpg : List ProxyGroup} {low landNodes : List String} {bl : BaseLists} {g : ProxyGroup}
    (hg : g ∈ buildProxyGroups land rf countries cpg low landNodes bl) :
    g.name ∈ fixedGroupNames ∨ g ∈ cpg := by
  simp only [buildProxyGroups] at hg
  rcases List.mem_append.mp hg with hg | hg
  · rcases List.mem_append.mp hg with hg | hg
    · rcases List.mem_append.mp hg with hg | hg
      · rcases List.mem_append.mp hg with hg | hg
        · left; fin_cases hg <;> simp [fixedGroupNames]
        · by_cases hl : land
          · rw [if_pos hl] at hg; left; fin_cases hg <;> simp [fixedGroupNames]
          · rw [if_neg hl] at hg; exact absurd hg (List.not_mem_nil g)
      · left; fin_cases hg <;> simp [fixedGroupNames]
    · by_cases hc : (decide (low.length > 0) || rf) = true
      · rw [if_pos hc] at hg; left; fin_cases hg <;> simp [fixedGroupNames]
      · rw [if_neg hc] at hg; exact absurd hg (List.not_mem_nil g)
  · exact Or.inr hg

theorem mem_parseLandingNodes {config : Config} {n : String}
    (h : n ∈ parseLandingNodes config) : ∃ p ∈ config.proxies.getD [], p.name = n := by
  rw [parseLandingNodes] at h
  rcases List.mem_map.mp h with ⟨p, hp, rfl⟩
  exact ⟨p, List.mem_of_mem_filter hp, rfl⟩

theorem mem_parseLowCost {config : Config} {n : String}
    (h : n ∈ parseLowCost config) : ∃ p ∈ config.proxies.getD [], p.name = n := by
  rw [parseLowCost] at h
  rcases List.mem_map.mp h with ⟨p, hp, rfl⟩
  exact ⟨p, List.mem_of_mem_filter hp, rfl⟩

theorem mem_nodesByCountry {info : List CountryInfo} {c n : String}
    (h : n ∈ nodesByCountry info c) : ∃ i ∈ info, n ∈ i.nodes := by
  rw [nodesByCountry] at h
  rcases hl : (info.filter (fun i => i.country = c)).getLast? with _ | i
  · rw [hl] at h; exact absurd h (List.not_mem_nil n)
  · rw [hl] at h
    exact ⟨i, List.mem_of_mem_filter (List.mem_of_getLast?_eq_some hl), h⟩

/-- A string that is not a country-group name never occurs among the
emitted country-group names. -/
theorem not_mem_cgn {config : Config} {t : Nat} {s : String}
    (h : ∀ c ∈ countryKeys, s ≠ c ++ NODE_SUFFIX) :
    s ∉ getCountryGroupNames (parseCountries config) t := by
  intro hs
  rcases mem_getCountryGroupNames.mp hs with ⟨i, hi, _, rfl⟩
  exact h i.country (parseCountries_country_mem_keys config i hi) rfl

theorem not_mem_defaultSelector {rf land : Bool} {low cgn : List String} {s : String}
    (hcgn : ∀ y ∈ cgn, s ≠ y)
    (h1 : s ≠ PROXY_GROUPS.FALLBACK) (h2 : s ≠ PROXY_GROUPS.LANDING)
    (h3 : s ≠ PROXY_GROUPS.LOW_COST) (h4 : s ≠ PROXY_GROUPS.MANUAL) (h5 : s ≠ "DIRECT") :
    s ∉ (buildBaseLists rf land low cgn).defaultSelector := by
  intro hs
  rcases mem_defaultSelector hs with h | h | h | h | h | h
  exacts [h1 h, h2 h, hcgn s h rfl, h3 h, h4 h, h5 h]

theorem not_mem_defaultProxies {rf land : Bool} {low cgn : List String} {s : String}
    (hcgn : ∀ y ∈ cgn, s ≠ y)
    (h1 : s ≠ PROXY_GROUPS.SELECT) (h2 : s ≠ PROXY_GROUPS.LOW_COST)
    (h3 : s ≠ PROXY_GROUPS.MANUAL) (h4 : s ≠ PROXY_GROUPS.DIRECT) :
    s ∉ (buildBaseLists rf land low cgn).defaultProxies := by
  intro hs
  rcases mem_defaultProxies hs with h | h | h | h | h
  exacts [h1 h, hcgn s h rfl, h2 h, h3 h, h4 h]

theorem not_mem_defaultProxiesDirect {rf land : Bool} {low cgn : List String} {s : String}
    (hcgn : ∀ y ∈ cgn, s ≠ y)
    (h1 : s ≠ PROXY_GROUPS.DIRECT) (h2 : s ≠ PROXY_GROUPS.LOW_COST)
    (h3 : s ≠ PROXY_GROUPS.SELECT) (h4 : s ≠ PROXY_GROUPS.MANUAL) :
    s ∉ (buildBaseLists rf land low cgn).defaultProxiesDirect := by
  intro hs
  rcases mem_defaultProxiesDirect hs with h | h | h | h | h
  exacts [h1 h, hcgn s h rfl, h2 h, h3 h, h4 h]

theorem not_mem_defaultFallback {rf land : Bool} {low cgn : List String} {s : String}
    (hcgn : ∀ y ∈ cgn, s ≠ y)
    (h1 : s ≠ PROXY_GROUPS.LANDING) (h2 : s ≠ PROXY_GROUPS.LOW_COST)
    (h3 : s ≠ PROXY_GROUPS.MANUAL) (h4 : s ≠ "DIRECT") :
    s ∉ (buildBaseLists rf land low cgn).defaultFallback := by
  intro hs
  rcases mem_defaultFallback hs with h | h | h | h | h
  exacts [h1 h, hcgn s h rfl, h2 h, h3 h, h4 h]

/-- Cycle-freedom of the assembled group graph, given that no input node
name collides with a reserved group name (country, landing, low-cost). -/
theorem mainProxyGroups_selfFree (f : FeatureFlags) (cfg : Config)
    (H : ∀ p ∈ cfg.proxies.getD [], p.name ∉ reservedNames) :
    ∀ g ∈ mainProxyGroups f cfg, g.name ∉ g.proxies.getD [] := by
  have hcgn : ∀ y ∈ getCountryGroupNames (parseCountries cfg) f.countryThreshold,
      ∃ c ∈ countryKeys, y = c ++ NODE_SUFFIX := by
    intro y hy
    rcases mem_getCountryGroupNames.mp hy with ⟨i, hi, _, rfl⟩
    exact ⟨i.country, parseCountries_country_mem_keys cfg i hi, rfl⟩
  have hne : ∀ (s : String), (∀ c ∈ countryKeys, s ≠ c ++ NODE_SUFFIX) →
      ∀ y ∈ getCountryGroupNames (parseCountries cfg) f.countryThreshold, s ≠ y := by
    intro s h y hy
    rcases hcgn y hy with ⟨c, hc, rfl⟩
    exact h c hc
  have hNodeRes : ∀ (n : String), (∃ p ∈ cfg.proxies.getD [], p.name = n) →
      n ∉ reservedNames := by
    rintro n ⟨p, hp, rfl⟩
    exact H p hp
  intro g hg
  rw [mainProxyGroups] at hg
  rcases List.mem_append.mp hg with hg | hg
  · -- the groups before GLOBAL
    have hgPre := hg
    simp only [mainGroupsBeforeGlobal, buildProxyGroups] at hg
    rcases List.mem_append.mp hg with hg | hg
    · rcases List.mem_append.mp hg with hg | hg
      · rcases List.mem_append.mp hg with hg | hg
        · rcases List.mem_append.mp hg with hg | hg
          · -- primary selector and manual
            fin_cases hg
            · dsimp only
              exact not_mem_defaultSelector (hne _ (by decide)) (by decide) (by decide)
                (by decide) (by decide) (by decide)
            · simp
          · -- front proxy and landing when the landing feature is on
            by_cases hl : f.landing
            · rw [if_pos hl] at hg
              fin_cases hg
              · dsimp only
                rw [if_pos hl]
                intro hmem
                exact absurd (List.mem_of_mem_filter hmem)
                  (not_mem_defaultSelector (hne _ (by decide)) (by decide) (by decide)
                    (by decide) (by decide) (by decide))
              · dsimp only
                by_cases hrf : f.regexFilter
                · simp [hrf]
                · rw [if_neg hrf, if_pos hl]
                  intro hmem
                  exact hNodeRes _ (mem_parseLandingNodes hmem) (by decide)
            · rw [if_neg hl] at hg
              exact absurd hg (List.not_mem_nil g)
        · -- the fixed service groups
          fin_cases hg
          · dsimp only
            exact not_mem_defaultFallback (hne _ (by decide)) (by decide) (by decide)
              (by decide) (by decide)
          · dsimp only
            exact not_mem_defaultProxies (hne _ (by decide)) (by decide) (by decide)
              (by decide) (by decide)
          · dsimp only
            exact not_mem_defaultProxies (hne _ (by decide)) (by decide) (by decide)
              (by decide) (by decide)
          · dsimp only
            exact not_mem_defaultProxies (hne _ (by decide)) (by decide) (by decide)
              (by decide) (by decide)
          · dsimp only
            exact not_mem_defaultProxies (hne _ (by decide)) (by decide) (by decide)
              (by decide) (by decide)
          · dsimp only
            exact not_mem_defaultProxies (hne _ (by decide)) (by decide) (by decide)
              (by decide) (by decide)
          · dsimp only
            exact not_mem_defaultProxies (hne _ (by decide)) (by decide) (by decide)
              (by decide) (by decide)
          · -- Bilibili
            dsimp only
            split
            · decide
            · exact not_mem_defaultProxiesDirect (hne _ (by decide)) (by decide) (by decide)
                (by decide) (by decide)
          · -- Bahamut
            dsimp only
            split
            · decide
            · exact not_mem_defaultProxies (hne _ (by decide)) (by decide) (by decide)
                (by decide) (by decide)
          · dsimp only
            exact not_mem_defaultProxies (hne _ (by decide)) (by decide) (by decide)
              (by decide) (by decide)
          · dsimp only
            exact not_mem_defaultProxies (hne _ (by decide)) (by decide) (by decide)
              (by decide) (by decide)
          · dsimp only
            exact not_mem_defaultProxies (hne _ (by decide)) (by decide) (by decide)
              (by decide) (by decide)
          · dsimp only
            exact not_mem_defaultProxies (hne _ (by decide)) (by decide) (by decide)
              (by decide) (by decide)
          · dsimp only
            exact not_mem_defaultProxies (hne _ (by decide)) (by decide) (by decide)
              (by decide) (by decide)
          · -- Truth Social
            dsimp only
            split
            · decide
            · exact not_mem_defaultProxies (hne _ (by decide)) (by decide) (by decide)
                (by decide) (by decide)
          · dsimp only
            exact not_mem_defaultProxies (hne _ (by decide)) (by decide) (by decide)
              (by decide) (by decide)
          · dsimp only
            exact not_mem_defaultProxies (hne _ (by decide)) (by decide) (by decide)
              (by decide) (by decide)
          · dsimp only
            exact not_mem_defaultProxies (hne _ (by decide)) (by decide) (by decide)
              (by decide) (by decide)
          · decide
          · decide
          · decide
      · -- optional low-cost group
        by_cases hc : (decide ((parseLowCost cfg).length > 0) || f.regexFilter) = true
        · rw [if_pos hc] at hg
          fin_cases hg
          dsimp only
          by_cases hrf : f.regexFilter
          · simp [hrf]
          · rw [if_neg hrf]
            intro hmem
            exact hNodeRes _ (mem_parseLowCost hmem) (by decide)
        · rw [if_neg hc] at hg
          exact absurd hg (List.not_mem_nil g)
    · -- country groups
      rcases mem_buildCountryProxyGroups hg with ⟨c, _, m, hm, hname, _, hprox⟩
      have hck : c ∈ countryKeys := countriesMetaFind_isSome_iff.mp ⟨m, hm⟩
      rcases hprox with hp | hp
      · rw [hp]
        simp
      · rw [hname, hp]
        intro hmem
        rcases mem_nodesByCountry hmem with ⟨i, hi, hn⟩
        apply hNodeRes _ (parseCountries_nodes cfg i hi _ hn).1
        rw [reservedNames]
        apply List.mem_append.mpr
        left
        rcases List.mem_map.mp hck with ⟨q, hq, rfl⟩
        exact List.mem_map.mpr ⟨q, hq, rfl⟩
  · -- the GLOBAL catch-all
    simp only [List.mem_singleton] at hg
    subst hg
    intro hmem
    rcases List.mem_map.mp hmem with ⟨g', hg', hname⟩
    rcases mem_buildProxyGroups_name (by exact hg') with hfix | hcpg
    · rw [hname] at hfix
      exact (by decide : "GLOBAL" ∉ fixedGroupNames) hfix
    · rcases mem_buildCountryProxyGroups hcpg with ⟨c, _, m, hm, hn, _, _⟩
      have hck : c ∈ countryKeys := countriesMetaFind_isSome_iff.mp ⟨m, hm⟩
      rw [hname] at hn
      exact (by decide : ∀ c ∈ countryKeys, "GLOBAL" ≠ c ++ NODE_SUFFIX) c hck hn

theorem weightLe_trans {a b c : Option Nat} (h₁ : weightLe a b = true) (h₂ : weightLe b c = true) :
    weightLe a c = true := by
  rcases a with _ | a <;> rcases b with _ | b <;> rcases c with _ | c <;>
    simp_all [weightLe] <;> omega

theorem weightLe_total (a b : Option Nat) : weightLe a b = true ∨ weightLe b a = true := by
  rcases a with _ | a <;> rcases b with _ | b <;> simp_all [weightLe] <;> omega

instance : IsTrans CountryInfo bucketLe :=
  ⟨fun _ _ _ h₁ h₂ => weightLe_trans h₁ h₂⟩

instance : IsTotal CountryInfo bucketLe :=
  ⟨fun a b => weightLe_total (jsWeight a.country) (jsWeight b.country)⟩

/-- Stripping the suffix from the emitted names recovers the countries of
the sorted, filtered buckets. -/
theorem strip_getCountryGroupNames (info : List CountryInfo) (t : Nat) :
    stripNodeSuffix (getCountryGroupNames info t) =
      ((info.filter (fun i => t ≤ i.nodes.length)).insertionSort bucketLe).map
        (fun i => i.country) := by
  rw [stripNodeSuffix, getCountryGroupNames, List.map_map]
  apply List.map_congr_left
  intro i _
  exact stripOneSuffix_append i.country

/-- The decidable fact that no fixed group name is a country-group name. -/
theorem fixed_not_country : ∀ s ∈ fixedGroupNames, ∀ c ∈ countryKeys, s ≠ c ++ NODE_SUFFIX := by
  decide

/-- A group of the assembler named like a country group is a country
group. -/
theorem mem_buildProxyGroups_country {land rf : Bool} {countries : List String}
    {cpg : List ProxyGroup} {low landNodes : List String} {bl : BaseLists} {g : ProxyGroup}
    {c : String} (hg : g ∈ buildProxyGroups land rf countries cpg low landNodes bl)
    (hname : g.name = c ++ NODE_SUFFIX) (hc : c ∈ countryKeys) : g ∈ cpg := by
  rcases mem_buildProxyGroups_name hg with hfix | h
  · exact absurd hname (fixed_not_country _ hfix c hc)
  · exact h

/-- A group of the assembler named like the low-cost group is the low-cost
group (hence its guard holds) or a country group. -/
theorem mem_buildProxyGroups_lowCost {land rf : Bool} {countries : List String}
    {cpg : List ProxyGroup} {low landNodes : List String} {bl : BaseLists} {g : ProxyGroup}
    (hg : g ∈ buildProxyGroups land rf countries cpg low landNodes bl)
    (hname : g.name = PROXY_GROUPS.LOW_COST) :
    ((decide (low.length > 0) || rf) = true ∧ g.type = "url-test") ∨ g ∈ cpg := by
  simp only [buildProxyGroups] at hg
  rcases List.mem_append.mp hg with hg | hg
  · rcases List.mem_append.mp hg with hg | hg
    · rcases List.mem_append.mp hg with hg | hg
      · rcases List.mem_append.mp hg with hg | hg
        · fin_cases hg <;> (dsimp only at hname; exact absurd hname (by decide))
        · by_cases hl : land
          · rw [if_pos hl] at hg
            fin_cases hg <;> (dsimp only at hname; exact absurd hname (by decide))
          · rw [if_neg hl] at hg
            exact absurd hg (List.not_mem_nil g)
      · fin_cases hg <;> (dsimp only at hname; exact absurd hname (by decide))
    · by_cases hc : (decide (low.length > 0) || rf) = true
      · rw [if_pos hc] at hg
        fin_cases hg
        exact Or.inl ⟨hc, rfl⟩
      · rw [if_neg hc] at hg
        exact absurd hg (List.not_mem_nil g)
  · exact Or.inr hg

/-- The low-cost group is present in the assembled list whenever its guard
holds. -/
theorem lowCost_mem_buildProxyGroups {land rf : Bool} {countries : List String}
    {cpg : List ProxyGroup} {low landNodes : List String} {bl : BaseLists}
    (hc : (decide (low.length > 0) || rf) = true) :
    ∃ g ∈ buildProxyGroups land rf countries cpg low landNodes bl,
      g.name = PROXY_GROUPS.LOW_COST := by
  refine ⟨{ name := PROXY_GROUPS.LOW_COST,
            icon := "https://gcore.jsdelivr.net/gh/Koolson/Qure@master/IconSet/Color/Lab.png",
            type := "url-test", url := some "https://cp.cloudflare.com/generate_204",
            proxies := if rf then none else some low,
            includeAll := rf,
            filter := if rf then some "(?i)0\\.[0-5]|低倍率|省流|大流量|实验性" else none },
          ?_, rfl⟩
  rw [buildProxyGroups]
  apply List.mem_append.mpr
  left
  apply List.mem_append.mpr
  right
  rw [if_pos hc]
  exact List.mem_singleton.mpr rfl

/-- Any member of the country-group section is a member of the assembled
list. -/
theorem cpg_subset_buildProxyGroups {land rf : Bool} {countries : List String}
    {cpg : List ProxyGroup} {low landNodes : List String} {bl : BaseLists} {g : ProxyGroup}
    (hg : g ∈ cpg) : g ∈ buildProxyGroups land rf countries cpg low landNodes bl := by
  rw [buildProxyGroups]
  exact List.mem_append.mpr (Or.inr hg)

theorem pushBucket_keys (acc : List CountryInfo) (c n : String) :
    (pushBucket acc c n).map (fun i => i.country) =
      (if c ∈ acc.map (fun i => i.country) then acc.map (fun i => i.country)
       else acc.map (fun i => i.country) ++ [c]) := by
  induction acc with
  | nil => simp [pushBucket]
  | cons i rest ih =>
    rw [pushBucket]
    by_cases hc : i.country = c
    · rw [if_pos hc]
      simp [hc]
    · rw [if_neg hc]
      have hc' : ¬(c = i.country) := fun h => hc h.symm
      by_cases h2 : c ∈ rest.map (fun i => i.country)
      · simp [ih, h2, hc']
      · simp [ih, h2, hc']

/-- The bucket countries of the classifier are pairwise distinct. -/
theorem parseCountries_countries_nodup (config : Config) :
    ((parseCountries config).map (fun i => i.country)).Nodup := by
  rw [parseCountries]
  generalize config.proxies.getD [] = l
  have : ∀ (l : List Proxy) (acc : List CountryInfo),
      ((acc.map (fun i => i.country)).Nodup) →
      ((l.foldl classifyStep acc).map (fun i => i.country)).Nodup := by
    intro l
    induction l with
    | nil => intro acc h; exact h
    | cons p l ih =>
      intro acc h
      rw [List.foldl_cons]
      apply ih
      rw [classifyStep_eq]
      rcases classifyName p.name with _ | c
      · exact h
      · rw [pushBucket_keys]
        by_cases hc : c ∈ acc.map (fun i => i.country)
        · rw [if_pos hc]; exact h
        · rw [if_neg hc]
          apply List.Nodup.append h (List.nodup_singleton c)
          intro x hx hx'
          rw [List.mem_singleton] at hx'
          subst hx'
          exact hc hx
  exact this l [] (by simp)

theorem classifyName_tests_false {n c : String} (h : classifyName n = some c) :
    landingTest n = false ∧ lowCostTest n = false := by
  rw [classifyName] at h
  by_cases h₁ : landingTest n
  · rw [if_pos h₁] at h; exact Option.noConfusion h
  · rw [if_neg h₁] at h
    by_cases h₂ : lowCostTest n
    · rw [if_pos h₂] at h; exact Option.noConfusion h
    · exact ⟨by simpa using h₁, by simpa using h₂⟩

/-- Boolean check that the node sets of the buckets are pairwise
disjoint. -/
def disjointBucketsCheck : List CountryInfo → Bool
  | [] => true
  | i :: rest =>
    rest.all (fun j => i.nodes.all (fun n => !(j.nodes.contains n))) &&
      disjointBucketsCheck rest

theorem disjointBucketsCheck_of (l : List CountryInfo)
    (hcl : ∀ i ∈ l, ∀ n ∈ i.nodes, classifyName n = some i.country)
    (hnd : (l.map (fun i => i.country)).Nodup) :
    disjointBucketsCheck l = true := by
  induction l with
  | nil => rfl
  | cons i rest ih =>
    rw [disjointBucketsCheck, Bool.and_eq_true]
    constructor
    · rw [List.all_eq_true]
      intro j hj
      rw [List.all_eq_true]
      intro n hn
      rw [Bool.not_eq_true']
      by_contra hcon
      rw [Bool.not_eq_false] at hcon
      have hnj : n ∈ j.nodes := by
        simpa [List.contains, List.elem_eq_mem] using hcon
      have e₁ := hcl i (List.mem_cons_self _ _) n hn
      have e₂ := hcl j (List.mem_cons_of_mem _ hj) n hnj
      rw [e₁] at e₂
      have : i.country = j.country := Option.some_inj.mp e₂
      rw [List.map_cons, List.nodup_cons] at hnd
      exact hnd.1 (this ▸ List.mem_map.mpr ⟨j, hj, rfl⟩)
    · exact ih (fun j hj => hcl j (List.mem_cons_of_mem _ hj))
        ((List.map_cons _ _ _ ▸ hnd).of_cons)

/-- The countries whose pattern matches a name, in declaration order. -/
def matchingCountries (name : String) : List String :=
  (countriesMeta.filter (fun cm => countryTest cm.2 name)).map (fun cm => cm.1)

/-- Boolean check that the bucket of a country contains a name. -/
def bucketsContain (l : List CountryInfo) (c n : String) : Bool :=
  l.any (fun i => i.country == c && i.nodes.contains n)

theorem bucketsContain_iff {l : List CountryInfo} {c n : String} :
    bucketsContain l c n = true ↔ ∃ i ∈ l, i.country = c ∧ n ∈ i.nodes := by
  rw [bucketsContain, List.any_eq_true]
  constructor
  · rintro ⟨i, hi, h⟩
    rw [Bool.and_eq_true] at h
    exact ⟨i, hi, by simpa using h.1, by simpa [List.contains, List.elem_eq_mem] using h.2⟩
  · rintro ⟨i, hi, h₁, h₂⟩
    exact ⟨i, hi, by simp [h₁, List.contains, List.elem_eq_mem, h₂]⟩

theorem firstCountry_eq_head (name : String) :
    firstCountry name = (matchingCountries name).head? := by
  rw [firstCountry, matchingCountries, find?_eq_head?_filter, List.head?_map]

theorem matchingCountries_nodup (name : String) : (matchingCountries name).Nodup := by
  have h : (countryKeys).Nodup := by decide
  rw [matchingCountries]
  have hs : List.Sublist
      ((countriesMeta.filter (fun cm => countryTest cm.2 name)).map (fun cm => cm.1))
      countryKeys := (List.filter_sublist countriesMeta).map (fun cm => cm.1)
  exact h.sublist hs

/-- Appending the node suffix is injective. -/
theorem append_nodeSuffix_inj {a b : String} (h : a ++ NODE_SUFFIX = b ++ NODE_SUFFIX) :
    a = b := by
  have hd : a.data ++ NODE_SUFFIX.data = b.data ++ NODE_SUFFIX.data := by
    have := congrArg String.data h
    rwa [String.data_append, String.data_append] at this
  have hab : a.data = b.data := List.append_cancel_right hd
  cases a
  cases b
  exact congrArg String.mk hab

/-- The low-cost guard of the script equals the existence of a low-cost
node. -/
theorem lowCost_guard_eq (config : Config) :
    decide ((parseLowCost config).length > 0) =
      (config.proxies.getD []).any (fun p => lowCostTest p.name) := by
  rw [Bool.eq_iff_iff, decide_eq_true_eq, List.any_eq_true]
  rw [parseLowCost, List.length_map]
  constructor
  · intro h
    rcases List.exists_mem_of_length_pos h with ⟨p, hp⟩
    rw [List.mem_filter] at hp
    exact ⟨p, hp.1, hp.2⟩
  · rintro ⟨p, hp, ht⟩
    exact List.length_pos.mpr (List.ne_nil_of_mem (List.mem_filter.mpr ⟨hp, ht⟩))

/-- The low-cost name occurs in the selector list exactly when the guard
holds (the name never collides with a country-group name). -/
theorem lowCost_mem_defaultSelector_iff {rf land : Bool} {config : Config} {t : Nat} :
    PROXY_GROUPS.LOW_COST ∈ (buildBaseLists rf land (parseLowCost config)
        (getCountryGroupNames (parseCountries config) t)).defaultSelector ↔
      (decide ((parseLowCost config).length > 0) || rf) = true := by
  constructor
  · intro h
    simp only [buildBaseLists] at h
    rcases List.mem_append.mp h with h | h
    · rcases List.mem_append.mp h with h | h
      · rcases List.mem_append.mp h with h | h
        · rcases List.mem_append.mp h with h | h
          · exact absurd h (by decide)
          · by_cases hl : land
            · rw [if_pos hl] at h
              exact absurd h (by decide)
            · rw [if_neg hl] at h
              exact absurd h (List.not_mem_nil _)
        · exact absurd h (not_mem_cgn (by decide))
      · by_cases hc : (decide ((parseLowCost config).length > 0) || rf) = true
        · exact hc
        · rw [if_neg hc] at h
          exact absurd h (List.not_mem_nil _)
    · exact absurd h (by decide)
  · intro hc
    simp only [buildBaseLists]
    apply List.mem_append.mpr
    left
    apply List.mem_append.mpr
    right
    rw [if_pos hc]
    exact List.mem_singleton.mpr rfl

theorem lowCost_mem_defaultProxies_iff {rf land : Bool} {config : Config} {t : Nat} :
    PROXY_GROUPS.LOW_COST ∈ (buildBaseLists rf land (parseLowCost config)
        (getCountryGroupNames (parseCountries config) t)).defaultProxies ↔
      (decide ((parseLowCost config).length > 0) || rf) = true := by
  constructor
  · intro h
    simp only [buildBaseLists] at h
    rcases List.mem_append.mp h with h | h
    · rcases List.mem_append.mp h with h | h
      · rcases List.mem_append.mp h with h | h
        · exact absurd h (by decide)
        · exact absurd h (not_mem_cgn (by decide))
      · by_cases hc : (decide ((parseLowCost config).length > 0) || rf) = true
        · exact hc
        · rw [if_neg hc] at h
          exact absurd h (List.not_mem_nil _)
    · exact absurd h (by decide)
  · intro hc
    simp only [buildBaseLists]
    apply List.mem_append.mpr
    left
    apply List.mem_append.mpr
    right
    rw [if_pos hc]
    exact List.mem_singleton.mpr rfl

theorem lowCost_mem_defaultProxiesDirect_iff {rf land : Bool} {config : Config} {t : Nat} :
    PROXY_GROUPS.LOW_COST ∈ (buildBaseLists rf land (parseLowCost config)
        (getCountryGroupNames (parseCountries config) t)).defaultProxiesDirect ↔
      (decide ((parseLowCost config).length > 0) || rf) = true := by
  constructor
  · intro h
    simp only [buildBaseLists] at h
    rcases List.mem_append.mp h with h | h
    · rcases List.mem_append.mp h with h | h
      · rcases List.mem_append.mp h with h | h
        · exact absurd h (by decide)
        · exact absurd h (not_mem_cgn (by decide))
      · by_cases hc : (decide ((parseLowCost config).length > 0) || rf) = true
        · exact hc
        · rw [if_neg hc] at h
          exact absurd h (List.not_mem_nil _)
    · exact absurd h (by decide)
  · intro hc
    simp only [buildBaseLists]
    apply List.mem_append.mpr
    left
    apply List.mem_append.mpr
    right
    rw [if_pos hc]
    exact List.mem_singleton.mpr rfl

theorem lowCost_mem_defaultFallback_iff {rf land : Bool} {config : Config} {t : Nat} :
    PROXY_GROUPS.LOW_COST ∈ (buildBaseLists rf land (parseLowCost config)
        (getCountryGroupNames (parseCountries config) t)).defaultFallback ↔
      (decide ((parseLowCost config).length > 0) || rf) = true := by
  constructor
  · intro h
    simp only [buildBaseLists] at h
    rcases List.mem_append.mp h with h | h
    · rcases List.mem_append.mp h with h | h
      · rcases List.mem_append.mp h with h | h
        · by_cases hl : land
          · rw [if_pos hl] at h
            exact absurd h (by decide)
          · rw [if_neg hl] at h
            exact absurd h (List.not_mem_nil _)
        · exact absurd h (not_mem_cgn (by decide))
      · by_cases hc : (decide ((parseLowCost config).length > 0) || rf) = true
        · exact hc
        · rw [if_neg hc] at h
          exact absurd h (List.not_mem_nil _)
    · exact absurd h (by decide)
  · intro hc
    simp only [buildBaseLists]
    apply List.mem_append.mpr
    left
    apply List.mem_append.mpr
    right
    rw [if_pos hc]
    exact List.mem_singleton.mpr rfl

/-! ### Concrete inputs used by counterexamples and witnesses -/

/-- The documented default flags: all booleans false, threshold 0. -/
def defFlags : FeatureFlags :=
  { loadBalance := false, landing := false, ipv6Enabled := false, fullConfig := false,
    keepAliveEnabled := false, fakeIPEnabled := false, quicEnabled := false,
    regexFilter := false, countryThreshold := 0 }

/-! ### Claim theorems -/

/-- C1: for every input config and every fixed flag assignment, invoking
the transform twice on identical input yields identical output structures;
in this embedding `main` is a function of the flags and the config, so a
repeated invocation is the same term and the outputs are equal. -/
theorem main_deterministic (flags : FeatureFlags) (config : Config) :
    main flags config = main flags config := rfl

/-- C2: the last group of the emitted sequence is the GLOBAL catch-all and
its candidate list is exactly the ordered list of the names of all groups
constructed before it. -/
theorem global_catchall (flags : FeatureFlags) (config : Config) :
    ((main flags config).proxyGroups.getLast?).map (fun g => g.name) = some "GLOBAL" ∧
    ((main flags config).proxyGroups.getLast?).map (fun g => g.proxies) =
      some (some (((main flags config).proxyGroups.dropLast).map (fun g => g.name))) := by
  have h : (main flags config).proxyGroups =
      mainGroupsBeforeGlobal flags config ++
        [globalGroup ((mainGroupsBeforeGlobal flags config).map (fun g => g.name))] := rfl
  rw [h, List.getLast?_concat, List.dropLast_concat]
  exact ⟨rfl, rfl⟩

/-- C9: a config with an absent node list produces the same group
structure as one with an empty node list, with no error. -/
theorem missing_proxies (flags : FeatureFlags) :
    (main flags { proxies := none }).proxyGroups =
      (main flags { proxies := some [] }).proxyGroups := rfl

/-- C5: classification places each node name in at most one country bucket
(the buckets are pairwise disjoint), and a name matching the landing or
the low-cost pattern is placed in no bucket at all. -/
theorem partition_property (config : Config) :
    disjointBucketsCheck (parseCountries config) = true ∧
    (parseCountries config).all
      (fun i => i.nodes.all (fun n => !landingTest n && !lowCostTest n)) = true := by
  constructor
  · apply disjointBucketsCheck_of
    · intro i hi n hn
      exact (parseCountries_nodes config i hi n hn).2
    · exact parseCountries_countries_nodup config
  · simp only [List.all_eq_true]
    intro i hi n hn
    have h := (parseCountries_nodes config i hi n hn).2
    rcases classifyName_tests_false h with ⟨h₁, h₂⟩
    rw [h₁, h₂]
    rfl

/-- C3 counterexample: with two nodes of tied (unset) weight, the emitted
country-group order follows the order in which the countries first appear
in the input, not the declaration order of the countries table: 澳门 is
declared before 韩国, both without weight, yet the input order decides. -/
theorem countryOrder_cex :
    getCountryGroupNames (parseCountries { proxies := some [{ name := "KR-1" }, { name := "MO-1" }] }) 0 ≠
      getCountryGroupNames (parseCountries { proxies := some [{ name := "MO-1" }, { name := "KR-1" }] }) 0 ∧
    getCountryGroupNames (parseCountries { proxies := some [{ name := "KR-1" }, { name := "MO-1" }] }) 0 =
      ["韩国节点", "澳门节点"] ∧
    jsWeight "澳门" = none ∧ jsWeight "韩国" = none := by decide

/-- C3 amended: the emitted country groups are in ascending weight order
with unset weights last, and the sequence is a permutation of the
threshold-filtered buckets; ties are resolved by the stability of the
sort, preserving the bucket order of the classifier output (the order in
which each country first appears in the input), not the declaration order
of the countries table. -/
theorem countryOrder_amended (info : List CountryInfo) (t : Nat) :
    List.Pairwise (fun a b => weightLe (jsWeight a) (jsWeight b) = true)
        (stripNodeSuffix (getCountryGroupNames info t)) ∧
    (stripNodeSuffix (getCountryGroupNames info t)).Perm
        ((info.filter (fun i => t ≤ i.nodes.length)).map (fun i => i.country)) ∧
    (∀ a b : CountryInfo,
      List.Sublist [a, b] (info.filter (fun i => t ≤ i.nodes.length)) →
      weightLe (jsWeight a.country) (jsWeight b.country) = true →
      List.Sublist [a.country, b.country] (stripNodeSuffix (getCountryGroupNames info t))) := by
  rw [strip_getCountryGroupNames]
  refine ⟨?_, ?_, ?_⟩
  · have hs : List.Pairwise bucketLe
        ((info.filter (fun i => t ≤ i.nodes.length)).insertionSort bucketLe) :=
      List.sorted_insertionSort bucketLe (info.filter (fun i => t ≤ i.nodes.length))
    exact List.pairwise_map.mpr hs
  · exact (List.perm_insertionSort bucketLe _).map (fun i => i.country)
  · intro a b hsub hle
    exact (List.pair_sublist_insertionSort (show bucketLe a b from hle) hsub).map
      (fun i => i.country)

/-- C3 witness: a concrete tied pair in classifier order stays in that
order in the output. -/
theorem countryOrder_witness :
    List.Sublist [CountryInfo.mk "韩国" ["KR-1"], CountryInfo.mk "澳门" ["MO-1"]]
      (([CountryInfo.mk "韩国" ["KR-1"], CountryInfo.mk "澳门" ["MO-1"]]).filter
        (fun i => 0 ≤ i.nodes.length)) ∧
    weightLe (jsWeight "韩国") (jsWeight "澳门") = true ∧
    List.Sublist ["韩国", "澳门"]
      (stripNodeSuffix (getCountryGroupNames
        [CountryInfo.mk "韩国" ["KR-1"], CountryInfo.mk "澳门" ["MO-1"]] 0)) :=
  ⟨by decide, by decide,
    (countryOrder_amended [CountryInfo.mk "韩国" ["KR-1"], CountryInfo.mk "澳门" ["MO-1"]] 0).2.2
      (CountryInfo.mk "韩国" ["KR-1"]) (CountryInfo.mk "澳门" ["MO-1"]) (by decide) (by decide)⟩

/-- C6: a node whose name matches the patterns of two or more countries
(and is neither landing nor low-cost) is assigned only to the country
declared earliest in the table; since the transform is a function, the
assignment is deterministic across repeated runs. -/
theorem first_match_tiebreak (config : Config) (p : Proxy) (c : String) (rest : List String)
    (hp : p ∈ config.proxies.getD [])
    (hland : landingTest p.name = false) (hlow : lowCostTest p.name = false)
    (hmatch : matchingCountries p.name = c :: rest) (hrest : rest ≠ []) :
    bucketsContain (parseCountries config) c p.name = true ∧
    rest.all (fun c' => !bucketsContain (parseCountries config) c' p.name) = true := by
  have hcl : classifyName p.name = some c := by
    rw [classifyName, if_neg (by simp [hland]), if_neg (by simp [hlow]),
      firstCountry_eq_head, hmatch]
    rfl
  constructor
  · exact bucketsContain_iff.mpr
      ((mem_parseCountries_iff config c p.name).mpr ⟨⟨p, hp, rfl⟩, hcl⟩)
  · rw [List.all_eq_true]
    intro c' hc'
    rw [Bool.not_eq_true']
    cases hb : bucketsContain (parseCountries config) c' p.name with
    | false => rfl
    | true =>
      exfalso
      rcases bucketsContain_iff.mp hb with ⟨i, hi, hic, hin⟩
      have h2 := ((mem_parseCountries_iff config c' p.name).mp ⟨i, hi, hic, hin⟩).2
      rw [hcl] at h2
      have hcc : c = c' := Option.some_inj.mp h2
      have hnd := matchingCountries_nodup p.name
      rw [hmatch, List.nodup_cons] at hnd
      exact hnd.1 (hcc ▸ hc')

/-- C6 witness: the name 港台 matches both 香港 and 台湾; it lands only in
the earlier-declared 香港 bucket. -/
theorem first_match_witness :
    matchingCountries "港台" = "香港" :: ["台湾"] ∧
    (bucketsContain (parseCountries { proxies := some [{ name := "港台" }] }) "香港" "港台" = true ∧
      (["台湾"].all fun c' =>
        !bucketsContain (parseCountries { proxies := some [{ name := "港台" }] }) c' "港台") = true) :=
  ⟨by decide,
    first_match_tiebreak { proxies := some [{ name := "港台" }] } { name := "港台" } "香港"
      ["台湾"] (by decide) (by decide) (by decide) (by decide) (by decide)⟩

/-- C7: a country group appears in the final sequence exactly when the
bucket of that country reaches the threshold. -/
theorem threshold_iff (flags : FeatureFlags) (config : Config) (c : String)
    (hc : c ∈ countryKeys) :
    (main flags config).proxyGroups.any (fun g => g.name == c ++ NODE_SUFFIX) =
      (parseCountries config).any
        (fun i => i.country == c && flags.countryThreshold ≤ i.nodes.length) := by
  rw [Bool.eq_iff_iff, List.any_eq_true, List.any_eq_true]
  have hsplit : (main flags config).proxyGroups =
      mainGroupsBeforeGlobal flags config ++
        [globalGroup ((mainGroupsBeforeGlobal flags config).map (fun g => g.name))] := rfl
  constructor
  · rintro ⟨g, hg, hb⟩
    have hname : g.name = c ++ NODE_SUFFIX := by simpa using hb
    rw [hsplit] at hg
    rcases List.mem_append.mp hg with hg | hg
    · simp only [mainGroupsBeforeGlobal] at hg
      have hin := mem_buildProxyGroups_country hg hname hc
      rcases mem_buildCountryProxyGroups hin with ⟨c', hc', m, hm, hname', _, _⟩
      have hcc : c' = c := append_nodeSuffix_inj (hname'.symm.trans hname)
      subst hcc
      rcases mem_stripNodeSuffix_getCountryGroupNames.mp hc' with ⟨i, hi, ht, hceq⟩
      exact ⟨i, hi, by simp [← hceq, ht]⟩
    · rw [List.mem_singleton] at hg
      subst hg
      have hglob : ∀ x ∈ countryKeys, ¬(("GLOBAL" : String) = x ++ NODE_SUFFIX) := by decide
      exact absurd hname (hglob c hc)
  · rintro ⟨i, hi, hb⟩
    rw [Bool.and_eq_true] at hb
    have hic : i.country = c := by simpa using hb.1
    have hlen : flags.countryThreshold ≤ i.nodes.length := by simpa using hb.2
    have hcs : c ∈ stripNodeSuffix (getCountryGroupNames (parseCountries config)
        flags.countryThreshold) :=
      mem_stripNodeSuffix_getCountryGroupNames.mpr ⟨i, hi, hlen, hic.symm⟩
    rcases countriesMetaFind_isSome_iff.mpr hc with ⟨m, hm⟩
    rcases @buildCountryProxyGroups_exists
      (stripNodeSuffix (getCountryGroupNames (parseCountries config) flags.countryThreshold))
      flags.landing flags.loadBalance flags.regexFilter (parseCountries config) c m hcs hm with
      ⟨g, hgc, hname⟩
    refine ⟨g, ?_, by simp [hname]⟩
    rw [hsplit]
    apply List.mem_append.mpr
    left
    simp only [mainGroupsBeforeGlobal]
    exact cpg_subset_buildProxyGroups hgc

/-- C7 witness: with threshold 2 and buckets 香港 of size 3 and 美国 of
size 1, only the 香港 group is emitted. -/
theorem threshold_witness :
    ((main { defFlags with countryThreshold := 2 }
        { proxies := some [{ name := "HK-1" }, { name := "HK-2" }, { name := "HK-3" },
                           { name := "US-1" }] }).proxyGroups.any
      (fun g => g.name == "香港" ++ NODE_SUFFIX) =
      (parseCountries { proxies := some [{ name := "HK-1" }, { name := "HK-2" },
          { name := "HK-3" }, { name := "US-1" }] }).any
        (fun i => i.country == "香港" &&
          ({ defFlags with countryThreshold := 2 } : FeatureFlags).countryThreshold ≤
            i.nodes.length)) ∧
    ((main { defFlags with countryThreshold := 2 }
        { proxies := some [{ name := "HK-1" }, { name := "HK-2" }, { name := "HK-3" },
                           { name := "US-1" }] }).proxyGroups.any
      (fun g => g.name == "美国" ++ NODE_SUFFIX) =
      (parseCountries { proxies := some [{ name := "HK-1" }, { name := "HK-2" },
          { name := "HK-3" }, { name := "US-1" }] }).any
        (fun i => i.country == "美国" &&
          ({ defFlags with countryThreshold := 2 } : FeatureFlags).countryThreshold ≤
            i.nodes.length)) :=
  ⟨threshold_iff { defFlags with countryThreshold := 2 }
      { proxies := some [{ name := "HK-1" }, { name := "HK-2" }, { name := "HK-3" },
                         { name := "US-1" }] } "香港" (by decide),
   threshold_iff { defFlags with countryThreshold := 2 }
      { proxies := some [{ name := "HK-1" }, { name := "HK-2" }, { name := "HK-3" },
                         { name := "US-1" }] } "美国" (by decide)⟩

/-- C8: the low-cost group is emitted, and the low-cost entry appears in
each of the four candidate lists, exactly when some node matches the
low-cost pattern or the runtime-pattern mode is active. -/
theorem lowCost_presence (flags : FeatureFlags) (config : Config) :
    ((∃ g ∈ (main flags config).proxyGroups, g.name = PROXY_GROUPS.LOW_COST) ↔
      ((config.proxies.getD []).any (fun p => lowCostTest p.name) || flags.regexFilter)
        = true) ∧
    (PROXY_GROUPS.LOW_COST ∈ (buildBaseLists flags.regexFilter flags.landing
        (parseLowCost config)
        (getCountryGroupNames (parseCountries config) flags.countryThreshold)).defaultSelector ↔
      ((config.proxies.getD []).any (fun p => lowCostTest p.name) || flags.regexFilter)
        = true) ∧
    (PROXY_GROUPS.LOW_COST ∈ (buildBaseLists flags.regexFilter flags.landing
        (parseLowCost config)
        (getCountryGroupNames (parseCountries config) flags.countryThreshold)).defaultProxies ↔
      ((config.proxies.getD []).any (fun p => lowCostTest p.name) || flags.regexFilter)
        = true) ∧
    (PROXY_GROUPS.LOW_COST ∈ (buildBaseLists flags.regexFilter flags.landing
        (parseLowCost config)
        (getCountryGroupNames (parseCountries config)
          flags.countryThreshold)).defaultProxiesDirect ↔
      ((config.proxies.getD []).any (fun p => lowCostTest p.name) || flags.regexFilter)
        = true) ∧
    (PROXY_GROUPS.LOW_COST ∈ (buildBaseLists flags.regexFilter flags.landing
        (parseLowCost config)
        (getCountryGroupNames (parseCountries config) flags.countryThreshold)).defaultFallback ↔
      ((config.proxies.getD []).any (fun p => lowCostTest p.name) || flags.regexFilter)
        = true) := by
  have hguard : (decide ((parseLowCost config).length > 0) || flags.regexFilter) =
      ((config.proxies.getD []).any (fun p => lowCostTest p.name) || flags.regexFilter) := by
    rw [lowCost_guard_eq]
  refine ⟨?_, ?_, ?_, ?_, ?_⟩
  · have hsplit : (main flags config).proxyGroups =
        mainGroupsBeforeGlobal flags config ++
          [globalGroup ((mainGroupsBeforeGlobal flags config).map (fun g => g.name))] := rfl
    constructor
    · rintro ⟨g, hg, hname⟩
      rw [hsplit] at hg
      rcases List.mem_append.mp hg with hg | hg
      · simp only [mainGroupsBeforeGlobal] at hg
        rcases mem_buildProxyGroups_lowCost hg hname with ⟨hc, _⟩ | hcpg
        · rw [← hguard]; exact hc
        · rcases mem_buildCountryProxyGroups hcpg with ⟨c', _, m, hm, hname', _, _⟩
          have hck : c' ∈ countryKeys := countriesMetaFind_isSome_iff.mp ⟨m, hm⟩
          rw [hname] at hname'
          have hno : ∀ x ∈ countryKeys, ¬(PROXY_GROUPS.LOW_COST = x ++ NODE_SUFFIX) := by
            decide
          exact absurd hname' (hno c' hck)
      · rw [List.mem_singleton] at hg
        subst hg
        have hgl : ¬(("GLOBAL" : String) = PROXY_GROUPS.LOW_COST) := by decide
        exact absurd hname hgl
    · intro hcond
      rw [← hguard] at hcond
      rcases @lowCost_mem_buildProxyGroups flags.landing flags.regexFilter
        (stripNodeSuffix (getCountryGroupNames (parseCountries config) flags.countryThreshold))
        (buildCountryProxyGroups
          (stripNodeSuffix (getCountryGroupNames (parseCountries config)
            flags.countryThreshold)) flags.landing flags.loadBalance flags.regexFilter
          (parseCountries config))
        (parseLowCost config)
        (if flags.landing then parseLandingNodes config else [])
        (buildBaseLists flags.regexFilter flags.landing (parseLowCost config)
          (getCountryGroupNames (parseCountries config) flags.countryThreshold))
        hcond with ⟨g, hg, hname⟩
      refine ⟨g, ?_, hname⟩
      rw [hsplit]
      exact List.mem_append.mpr (Or.inl hg)
  · rw [← hguard]; exact lowCost_mem_defaultSelector_iff
  · rw [← hguard]; exact lowCost_mem_defaultProxies_iff
  · rw [← hguard]; exact lowCost_mem_defaultProxiesDirect_iff
  · rw [← hguard]; exact lowCost_mem_defaultFallback_iff

/-- C10: every emitted group named as the low-cost group has type
url-test, even under the load-balance flag, while every emitted group
named as a country group has type load-balance exactly when that flag is
set (and url-test otherwise). -/
theorem lowCost_type_invariant (flags : FeatureFlags) (config : Config) :
    (((main flags config).proxyGroups.filter
        (fun g => g.name == PROXY_GROUPS.LOW_COST)).all
      (fun g => g.type == "url-test") = true) ∧
    (((main flags config).proxyGroups.filter
        (fun g => countriesMeta.any (fun q => g.name == q.1 ++ NODE_SUFFIX))).all
      (fun g => g.type == (if flags.loadBalance then "load-balance" else "url-test"))
        = true) := by
  have hsplit : (main flags config).proxyGroups =
      mainGroupsBeforeGlobal flags config ++
        [globalGroup ((mainGroupsBeforeGlobal flags config).map (fun g => g.name))] := rfl
  constructor
  · rw [List.all_eq_true]
    intro g hgf
    rw [List.mem_filter] at hgf
    obtain ⟨hg, hb⟩ := hgf
    have hname : g.name = PROXY_GROUPS.LOW_COST := by simpa using hb
    rw [hsplit] at hg
    rcases List.mem_append.mp hg with hg | hg
    · simp only [mainGroupsBeforeGlobal] at hg
      rcases mem_buildProxyGroups_lowCost hg hname with ⟨_, htype⟩ | hcpg
      · simp [htype]
      · rcases mem_buildCountryProxyGroups hcpg with ⟨c', _, m, hm, hname', _, _⟩
        have hck : c' ∈ countryKeys := countriesMetaFind_isSome_iff.mp ⟨m, hm⟩
        rw [hname] at hname'
        have hno : ∀ x ∈ countryKeys, ¬(PROXY_GROUPS.LOW_COST = x ++ NODE_SUFFIX) := by
          decide
        exact absurd hname' (hno c' hck)
    · rw [List.mem_singleton] at hg
      subst hg
      have hgl : ¬(("GLOBAL" : String) = PROXY_GROUPS.LOW_COST) := by decide
      exact absurd hname hgl
  · rw [List.all_eq_true]
    intro g hgf
    rw [List.mem_filter] at hgf
    obtain ⟨hg, hb⟩ := hgf
    rcases List.any_eq_true.mp hb with ⟨q, hq, hbq⟩
    have hname : g.name = q.1 ++ NODE_SUFFIX := by simpa using hbq
    have hqk : q.1 ∈ countryKeys := List.mem_map.mpr ⟨q, hq, rfl⟩
    rw [hsplit] at hg
    rcases List.mem_append.mp hg with hg | hg
    · simp only [mainGroupsBeforeGlobal] at hg
      have hcpg := mem_buildProxyGroups_country hg hname hqk
      rcases mem_buildCountryProxyGroups hcpg with ⟨c', _, m, hm, _, htype, _⟩
      simp [htype]
    · rw [List.mem_singleton] at hg
      subst hg
      have hglob : ∀ x ∈ countryKeys, ¬(("GLOBAL" : String) = x ++ NODE_SUFFIX) := by decide
      exact absurd hname (hglob q.1 hqk)

/-- C4 counterexample: a node literally named 香港节点 is classified into
the 香港 bucket, so the emitted country group 香港节点 enumerates its own
name among its candidates — the claim fails for such adversarial node
names. -/
theorem selfRef_cex :
    ∃ g ∈ mainProxyGroups defFlags { proxies := some [{ name := "香港节点" }] },
      g.name ∈ g.proxies.getD [] := by decide

/-- C4 amended: no emitted group lists its own name among its candidates,
provided no input node name equals a reserved group name (a country-group
name, the landing group name or the low-cost group name); the groups whose
candidates are group references only (Selector, Fallback, Front-Proxy,
services, GLOBAL) are covered without restriction by this statement. -/
theorem selfRef_amended (flags : FeatureFlags) (config : Config)
    (H : (config.proxies.getD []).all (fun p => !(reservedNames.contains p.name)) = true) :
    (mainProxyGroups flags config).all
      (fun g => !((g.proxies.getD []).contains g.name)) = true := by
  have H' : ∀ p ∈ config.proxies.getD [], p.name ∉ reservedNames := by
    rw [List.all_eq_true] at H
    intro p hp
    have hb := H p hp
    simpa [List.contains, List.elem_eq_mem] using hb
  rw [List.all_eq_true]
  intro g hg
  have h2 := mainProxyGroups_selfFree flags config H' g hg
  simp [List.contains, List.elem_eq_mem, h2]

/-- C4 witness: a landing-enabled run over ordinary node names satisfies
the no-collision hypothesis and the cycle-freedom conclusion. -/
theorem selfRef_witness :
    ((({ proxies := some [{ name := "HK-1" }, { name := "0.3x" }, { name := "家宽A" }] } :
        Config).proxies.getD []).all (fun p => !(reservedNames.contains p.name)) = true) ∧
    (mainProxyGroups { defFlags with landing := true }
        { proxies := some [{ name := "HK-1" }, { name := "0.3x" }, { name := "家宽A" }] }).all
      (fun g => !((g.proxies.getD []).contains g.name)) = true :=
  ⟨by decide,
    selfRef_amended { defFlags with landing := true }
      { proxies := some [{ name := "HK-1" }, { name := "0.3x" }, { name := "家宽A" }] }
      (by decide)⟩

end OverrideRules
